import Mathlib

/-!
# gyoka-client: URI validation, auth options and the retrying request executor

A shallow embedding of `go/types/types.go` and `go/client.go`.

Modelling conventions.

* A Go `string` is a sequence of bytes.  It is modelled by a Lean `String`
  whose characters stand for the code units; every operation the source
  applies to strings (`HasPrefix`, `Split` on the one-byte separator `/`,
  the slice `s[5:]` after the five-byte prefix `at://`, concatenation) acts
  code unit by code unit.
* A Go `error` value is `Option GoError` (`none` is `nil`).
* Logging is not modelled: it does not influence any returned value.
* The network is a `Transport` that answers the k-th request sent; the
  `World` is the log of the requests sent so far.
-/

namespace Gyoka

/-! ## Go strings -/

/-- Go `strings.HasPrefix(s, p)`. -/
def hasPrefix (s p : String) : Bool :=
  p.data.isPrefixOf s.data

/-- Go slice expression `s[n:]`. -/
def sliceFrom (s : String) (n : Nat) : String :=
  ⟨s.data.drop n⟩

/-- Splitting of a code unit list at every occurrence of `sep`; the result
is never empty. -/
def splitList (sep : Char) : List Char → List (List Char)
  | [] => [[]]
  | c :: cs =>
    if c = sep then [] :: splitList sep cs
    else
      match splitList sep cs with
      | [] => [[c]]
      | p :: ps => (c :: p) :: ps

/-- Go `strings.Split(s, sep)` for a separator of one byte. -/
def stringsSplit (s : String) (sep : Char) : List String :=
  (splitList sep s.data).map String.mk

/-- Go `strings.TrimPrefix(s, p)`. -/
def trimPrefix (s p : String) : String :=
  if hasPrefix s p then sliceFrom s p.length else s

/-- Go `fmt.Sprintf("%d", n)` for a natural number. -/
def natDigits (n : Nat) : String :=
  Nat.repr n

/-- Go `fmt.Sprintf("%d", n)` for an `int`. -/
def itoa (n : Int) : String :=
  if n < 0 then "-" ++ natDigits n.natAbs else natDigits n.toNat

/-! ## Go errors -/

/-- A non-nil Go error: a plain message (`errors.New`, `fmt.Errorf` without
`%w`) or a message prefix wrapping another error (`fmt.Errorf(pre + "%w", e)`). -/
inductive GoError where
  | mk (msg : String)
  | wrap (pre : String) (inner : GoError)
  deriving DecidableEq, Repr

/-- The text of `err.Error()`. -/
def GoError.text : GoError → String
  | .mk msg => msg
  | .wrap pre inner => pre ++ inner.text

/-- Go `fmt.Errorf(pre + "%w", err)` where `err` may be nil. -/
def errorfW (pre : String) : Option GoError → GoError
  | some e => .wrap pre e
  | none => .mk (pre ++ "%!w(<nil>)")

/-! ## types.go -/

structure Post where
  Feed : String
  Uri : String
  Cid : String
  IndexedAt : String
  deriving DecidableEq, Repr

/-- The method `AtUri.validate`. -/
def AtUri.validate (u : String) (collection idName : String) : Option GoError :=
  if u = "" then some (.mk "uri is empty")
  else if !hasPrefix u "at://" then some (.mk "uri must start with at://")
  else
    match stringsSplit (sliceFrom u 5) '/' with
    | [p0, p1, p2] =>
      if !hasPrefix p0 "did:plc:" then some (.mk "invalid did format")
      else if p1 ≠ collection then some (.mk "invalid collection")
      else if p2 = "" then some (.mk (idName ++ " is empty"))
      else none
    | _ => some (.mk "invalid uri format")

/-- The method `FeedUri.Validate`. -/
def FeedUri.Validate (f : String) : Option GoError :=
  AtUri.validate f "app.bsky.feed.generator" "feed name"

/-- The method `PostUri.Validate`. -/
def PostUri.Validate (u : String) : Option GoError :=
  AtUri.validate u "app.bsky.feed.post" "post id"

/-! ## The validator's contract, rule by rule -/

/-- The segments of the text after the five-byte scheme prefix, split on `/`. -/
def uriSegments (s : String) : List String :=
  stringsSplit (sliceFrom s 5) '/'

/-- Segment number `k` of the text after the scheme prefix (empty when absent). -/
def uriSegment (s : String) (k : Nat) : String :=
  (uriSegments s).getD k ""

/-- The contract's rules (a) to (f) for a given collection name. -/
def allRules (collection : String) (s : String) : Prop :=
  s ≠ "" ∧ hasPrefix s "at://" = true ∧ (uriSegments s).length = 3 ∧
  hasPrefix (uriSegment s 0) "did:plc:" = true ∧ uriSegment s 1 = collection ∧ uriSegment s 2 ≠ ""

/-- The error of the first rule that fails, taking the rules in the order
(a) to (f); `none` when no rule fails. -/
def firstFailure (collection keyError : String) (s : String) : Option GoError :=
  if s = "" then some (.mk "uri is empty")
  else if hasPrefix s "at://" = false then some (.mk "uri must start with at://")
  else if (uriSegments s).length ≠ 3 then some (.mk "invalid uri format")
  else if hasPrefix (uriSegment s 0) "did:plc:" = false then some (.mk "invalid did format")
  else if uriSegment s 1 ≠ collection then some (.mk "invalid collection")
  else if uriSegment s 2 = "" then some (.mk keyError)
  else none

/-- The URI grammar `at://did:plc:<id>/<collection>/<key>` with `id` and `key`
non-empty and free of `/`. -/
def matchesGrammar (collection : String) (s : String) : Prop :=
  ∃ id key : String, id ≠ "" ∧ '/' ∉ id.data ∧ key ≠ "" ∧ '/' ∉ key.data ∧
    s = "at://did:plc:" ++ id ++ "/" ++ collection ++ "/" ++ key

/-- The URI grammar as the validator enforces it: as `matchesGrammar`, but
the text after `did:plc:` may be empty. -/
def matchesGrammarLax (collection : String) (s : String) : Prop :=
  ∃ id key : String, '/' ∉ id.data ∧ key ≠ "" ∧ '/' ∉ key.data ∧
    s = "at://did:plc:" ++ id ++ "/" ++ collection ++ "/" ++ key

/-! ## client.go: configuration -/

def defaultTimeout : Int := 30 * 1000000000

def maxIdleConns : Int := 100

def maxIdleConnsPerHost : Int := 100

def idleConnTimeout : Int := 90 * 1000000000

def maxRetries : Nat := 3

def retryWaitTime : Int := 1 * 1000000000

inductive AuthType where
  | NoAuth
  | CloudflareAccess
  | BearerToken
  | BasicAuth
  deriving DecidableEq, Repr

/-- A Go `map[string]string` (also used for `http.Header`, whose keys here are
all in canonical form and single-valued): an association list without
duplicate keys. -/
abbrev StrMap := List (String × String)

/-- Go `m[k]` as a two-valued lookup. -/
def StrMap.lookup (m : StrMap) (k : String) : Option String :=
  List.lookup k m

/-- Go `m[k]`: the zero value `""` when the key is absent. -/
def StrMap.get (m : StrMap) (k : String) : String :=
  (StrMap.lookup m k).getD ""

/-- Go `m[k] = v` (and `Header.Set(k, v)`). -/
def StrMap.set (m : StrMap) (k v : String) : StrMap :=
  m.filter (fun e => e.1 ≠ k) ++ [(k, v)]

structure AuthConfig where
  authType : AuthType
  Credentials : StrMap
  deriving DecidableEq, Repr

structure ClientOptions where
  Timeout : Int
  MaxIdleConns : Int
  MaxRetries : Int
  RetryWaitTime : Int
  Auth : AuthConfig
  deriving DecidableEq, Repr

def DefaultClientOptions : ClientOptions :=
  { Timeout := defaultTimeout
    MaxIdleConns := maxIdleConns
    MaxRetries := maxRetries
    RetryWaitTime := retryWaitTime
    Auth := { authType := .NoAuth, Credentials := [] } }

/-- The type `ClientOption`, `func(*ClientOptions)`: the mutation is returned
as the new value. -/
abbrev ClientOption := ClientOptions → ClientOptions

def WithToken (token : String) : ClientOption := fun opts =>
  if opts.Auth.authType ≠ .NoAuth then opts
  else
    { opts with Auth :=
        { authType := .BearerToken
          Credentials := StrMap.set opts.Auth.Credentials "token" token } }

def WithCloudflareAccess (clientID clientSecret : String) : ClientOption := fun opts =>
  if opts.Auth.authType ≠ .NoAuth then opts
  else
    { opts with Auth :=
        { authType := .CloudflareAccess
          Credentials :=
            StrMap.set (StrMap.set opts.Auth.Credentials "clientId" clientID)
              "clientSecret" clientSecret } }

def WithBasicAuth (username password : String) : ClientOption := fun opts =>
  if opts.Auth.authType ≠ .NoAuth then opts
  else
    { opts with Auth :=
        { authType := .BasicAuth
          Credentials :=
            StrMap.set (StrMap.set opts.Auth.Credentials "username" username)
              "password" password } }

/-- The `http.Client` built by `NewClient`, with its transport's settings. -/
structure HttpClient where
  Timeout : Int
  MaxIdleConns : Int
  MaxIdleConnsPerHost : Int
  IdleConnTimeout : Int
  deriving DecidableEq, Repr

structure Client where
  BaseURL : String
  httpClient : HttpClient
  config : ClientOptions
  deriving DecidableEq, Repr

/-- The loop of `NewClient` that applies the options in order. -/
def applyOptions (opt : ClientOptions) (opts : List ClientOption) : ClientOptions :=
  opts.foldl (fun o f => f o) opt

/-- The constructor `NewClient`; its error result is always nil. -/
def NewClient (baseURL : String) (opts : List ClientOption) : Client :=
  let opt := applyOptions DefaultClientOptions opts
  { BaseURL := baseURL
    httpClient :=
      { Timeout := opt.Timeout
        MaxIdleConns := opt.MaxIdleConns
        MaxIdleConnsPerHost := maxIdleConnsPerHost
        IdleConnTimeout := idleConnTimeout }
    config := opt }

def Client.GetAuthType (c : Client) : AuthType :=
  c.config.Auth.authType

/-! ## client.go: requests, responses and the network -/

structure CreatePostRequest where
  Posts : List Post
  deriving DecidableEq, Repr

structure DeletePostRequest where
  Posts : List Post
  deriving DecidableEq, Repr

/-- The values passed as `body interface{}` to the request executor. -/
inductive Body where
  | create (r : CreatePostRequest)
  | delete (r : DeletePostRequest)
  deriving DecidableEq, Repr

structure CreatePostResponse where
  InsertedPosts : List Post
  FailedPosts : List Post
  Message : String
  deriving DecidableEq, Repr

structure DeletePostResponse where
  DeletedPosts : List Post
  FailedPosts : List Post
  Message : String
  deriving DecidableEq, Repr

structure TrimResponse where
  Message : String
  DeletedCount : Int
  deriving DecidableEq, Repr

structure ListPostResponse where
  Feed : String
  Count : Int
  Posts : List Post
  deriving DecidableEq, Repr

/-- The anonymous struct `errResponse` of `RequestWithResponse`. -/
structure ErrResponse where
  Message : String
  Error : String
  deriving DecidableEq, Repr

/-- The URL of a request: parsed from a string by `http.NewRequestWithContext`,
or given by its parts as in `Ping`. -/
inductive URL where
  | parse (raw : String)
  | parts (Scheme Host Path : String)
  deriving DecidableEq, Repr

structure Request where
  Method : String
  url : URL
  Header : StrMap
  body : Option String
  deriving DecidableEq, Repr

/-- An HTTP response.  `body` is what reading `resp.Body` yields as far as the
executor reads it, that is within its limit of 1 MiB: `.error e` when the read
fails before that limit is reached, and `.ok b` otherwise, `b` being the bytes
the body delivers (a failure past the limit is never met by the reader). -/
structure Response where
  StatusCode : Int
  Status : String
  body : Except GoError String

/-- The network and server: the outcome of `httpClient.Do` for the k-th
request sent (counting from 0), a transport error or a response. -/
abbrev Transport := Nat → Request → Except GoError Response

/-- The log of the requests handed to `httpClient.Do`, oldest first. -/
abbrev World := List Request

/-- The caller's `context.Context`: `done k` tells whether the context is
cancelled before the backoff wait preceding attempt `k` has elapsed, and
`err` is `ctx.Err()`. -/
structure Context where
  done : Nat → Bool
  err : GoError

/-- A context that is never cancelled. -/
def Context.neverCancelled (ctx : Context) : Prop :=
  ∀ k, ctx.done k = false

/-- The library functions the client calls: `json.Marshal`,
the error of `http.NewRequestWithContext` for a method and URL, the base64
encoding used by `SetBasicAuth`, and `json.Unmarshal` into each response
type. -/
structure Lib where
  jsonMarshal : Body → Except GoError String
  newRequestErr : String → String → Option GoError
  base64 : String → String
  unmarshalErrResponse : String → Except GoError ErrResponse
  unmarshalCreate : String → Except GoError CreatePostResponse
  unmarshalDelete : String → Except GoError DeletePostResponse
  unmarshalTrim : String → Except GoError TrimResponse
  unmarshalList : String → Except GoError ListPostResponse

/-- Go `http.StatusTooManyRequests`. -/
def StatusTooManyRequests : Int := 429

/-- Go `http.StatusOK`. -/
def StatusOK : Int := 200

/-- Go `req.SetBasicAuth(username, password)`. -/
def Request.SetBasicAuth (L : Lib) (req : Request) (username password : String) : Request :=
  let value := "Basic " ++ L.base64 (username ++ ":" ++ password)
  { req with Header := StrMap.set req.Header "Authorization" value }

/-- The method `Client.applyAuth`.  `Authorization` is already in canonical
form; the two Cloudflare keys are stored in the form `Header.Set` gives them. -/
def Client.applyAuth (L : Lib) (c : Client) (req : Request) : Request :=
  match c.config.Auth.authType with
  | .BearerToken =>
    let token := StrMap.get c.config.Auth.Credentials "token"
    if token ≠ "" then
      { req with Header := StrMap.set req.Header "Authorization" ("Bearer " ++ token) }
    else req
  | .CloudflareAccess =>
    -- `Header.Set` stores a key under its canonical form: `CF-Access-Client-Id`
    -- becomes `Cf-Access-Client-Id`, `CF-Access-Client-Secret` likewise.
    let h1 := StrMap.set req.Header "Cf-Access-Client-Id"
      (StrMap.get c.config.Auth.Credentials "clientId")
    let h2 := StrMap.set h1 "Cf-Access-Client-Secret"
      (StrMap.get c.config.Auth.Credentials "clientSecret")
    { req with Header := h2 }
  | .BasicAuth =>
    Request.SetBasicAuth L req (StrMap.get c.config.Auth.Credentials "username")
      (StrMap.get c.config.Auth.Credentials "password")
  | .NoAuth => req

/-- The call `c.httpClient.Do(req)`: the request is logged and the transport
answers it. -/
def httpDo (t : Transport) (req : Request) (w : World) : Except GoError Response × World :=
  (t w.length req, w ++ [req])

/-- The loop of `Client.doRequest` from iteration `attempt` on, with
`remaining = maxRetries - attempt` iterations left. -/
def doRequestFrom (t : Transport) (ctx : Context) (req : Request) :
    Nat → Nat → Option GoError → World → Except GoError Response × World
  | 0, _, lastErr, w => (.error (errorfW "max retries exceeded: " lastErr), w)
  | remaining + 1, attempt, _, w =>
    if attempt > 0 ∧ ctx.done attempt = true then (.error ctx.err, w)
    else
      match httpDo t req w with
      | (.error err, w1) => doRequestFrom t ctx req remaining (attempt + 1) (some err) w1
      | (.ok resp, w1) =>
        if resp.StatusCode ≥ 500 ∨ resp.StatusCode = StatusTooManyRequests then
          doRequestFrom t ctx req remaining (attempt + 1)
            (some (.mk ("server error: " ++ resp.Status))) w1
        else (.ok resp, w1)

/-- The method `Client.doRequest`.  The loop bound is the package constant
`maxRetries`; the client's configuration is not consulted. -/
def Client.doRequest (_c : Client) (t : Transport) (ctx : Context) (req : Request)
    (w : World) : Except GoError Response × World :=
  doRequestFrom t ctx req maxRetries 0 none w

/-- Go `io.ReadAll(io.LimitReader(resp.Body, 1024*1024))`: a read error met
within the limit is returned, otherwise the first 1 MiB of the bytes. -/
def readAllLimited (resp : Response) : Except GoError String :=
  match resp.body with
  | .ok b => .ok ⟨b.data.take (1024 * 1024)⟩
  | .error e => .error e

/-- The request that `RequestWithResponse` builds: method, URL
`c.BaseURL + path`, header `Content-Type`, then `applyAuth`. -/
def Client.buildRequest (L : Lib) (c : Client) (method path : String)
    (bodyReader : Option String) : Request :=
  Client.applyAuth L c
    { Method := method
      url := .parse (c.BaseURL ++ path)
      Header := StrMap.set [] "Content-Type" "application/json"
      body := bodyReader }

/-- The first step of `RequestWithResponse`: a nil body gives a nil reader,
any other body is marshalled to JSON. -/
def marshalBody (L : Lib) (body : Option Body) : Except GoError (Option String) :=
  match body with
  | none => .ok none
  | some b =>
    match L.jsonMarshal b with
    | .ok jsonData => .ok (some jsonData)
    | .error err => .error err

/-- The method `Client.RequestWithResponse`.  The `response` pointer is
modelled by the decoder `decode` of its type; the decoded value is returned. -/
def Client.RequestWithResponse {ρ : Type} (L : Lib) (c : Client) (t : Transport)
    (ctx : Context) (method path : String) (body : Option Body)
    (decode : String → Except GoError ρ) (w : World) : Except GoError ρ × World :=
  match marshalBody L body with
  | .error err => (.error (.wrap "failed to marshal request body: " err), w)
  | .ok bodyReader =>
    match L.newRequestErr method (c.BaseURL ++ path) with
    | some err => (.error (.wrap "failed to create request: " err), w)
    | none =>
      let req := Client.buildRequest L c method path bodyReader
      match Client.doRequest c t ctx req w with
      | (.error err, w1) => (.error (.wrap "request failed: " err), w1)
      | (.ok resp, w1) =>
        match readAllLimited resp with
        | .error err => (.error (.wrap "failed to read response body: " err), w1)
        | .ok bodyBytes =>
          if resp.StatusCode ≠ StatusOK then
            match L.unmarshalErrResponse bodyBytes with
            | .error _ =>
              (.error (.mk ("unexpected status " ++ resp.Status ++ ": " ++ bodyBytes)), w1)
            | .ok errResponse => (.error (.mk ("api error: " ++ errResponse.Message)), w1)
          else
            match decode bodyBytes with
            | .error err => (.error (.wrap "failed to unmarshal response: " err), w1)
            | .ok response => (.ok response, w1)

/-! ## client.go: the feed operations -/

/-- The tail shared by the feed operations: `(nil, err)` when the executor
fails, `(&response, nil)` otherwise. -/
def returnResponse {ρ : Type} (r : Except GoError ρ × World) :
    (Option ρ × Option GoError) × World :=
  match r with
  | (.error err, w) => ((none, some err), w)
  | (.ok response, w) => ((some response, none), w)

def Client.Add (L : Lib) (c : Client) (t : Transport) (ctx : Context) (posts : List Post)
    (w : World) : (Option CreatePostResponse × Option GoError) × World :=
  if posts.length = 0 then
    ((some { InsertedPosts := [], FailedPosts := [], Message := "" }, none), w)
  else if posts.length > 40 then
    ((none, some (.mk ("too many posts: " ++ natDigits posts.length ++ " (max 40)"))), w)
  else
    returnResponse
      (Client.RequestWithResponse L c t ctx "POST" "/feed/add"
        (some (.create { Posts := posts })) L.unmarshalCreate w)

def Client.Delete (L : Lib) (c : Client) (t : Transport) (ctx : Context) (posts : List Post)
    (w : World) : (Option DeletePostResponse × Option GoError) × World :=
  if posts.length = 0 then
    ((some { DeletedPosts := [], FailedPosts := [], Message := "" }, none), w)
  else if posts.length > 40 then
    ((none, some (.mk ("too many posts: " ++ natDigits posts.length ++ " (max 40)"))), w)
  else
    returnResponse
      (Client.RequestWithResponse L c t ctx "POST" "/feed/delete"
        (some (.delete { Posts := posts })) L.unmarshalDelete w)

def Client.TrimWithCount (L : Lib) (c : Client) (t : Transport) (ctx : Context)
    (feed : String) (count : Int) (w : World) :
    (Option TrimResponse × Option GoError) × World :=
  if count < 0 then ((none, some (.mk ("invalid count: " ++ itoa count))), w)
  else
    match FeedUri.Validate feed with
    | some err => ((none, some (.wrap "invalid feed uri: " err)), w)
    | none =>
      let path := "/feed/trim?feed=" ++ feed ++ "&within-count=" ++ itoa count
      returnResponse (Client.RequestWithResponse L c t ctx "GET" path none L.unmarshalTrim w)

def Client.ListPost (L : Lib) (c : Client) (t : Transport) (ctx : Context)
    (feed : String) (limit : Int) (w : World) :
    (Option ListPostResponse × Option GoError) × World :=
  match FeedUri.Validate feed with
  | some err => ((none, some (.wrap "invalid feed uri: " err)), w)
  | none =>
    let query := "/feed/list?feed=" ++ feed
    let query := if limit > 0 then query ++ "&limit=" ++ itoa limit else query
    returnResponse (Client.RequestWithResponse L c t ctx "GET" query none L.unmarshalList w)

/-- The request that `Ping` builds by hand: no header at all. -/
def Client.pingRequest (c : Client) : Request :=
  { Method := "GET"
    url := .parts "http" (trimPrefix (trimPrefix c.BaseURL "http://") "https://") "/"
    Header := []
    body := none }

def Client.Ping (c : Client) (t : Transport) (ctx : Context) (w : World) :
    Option GoError × World :=
  match Client.doRequest c t ctx (Client.pingRequest c) w with
  | (.error err, w1) => (some (.wrap "failed to ping server: " err), w1)
  | (.ok resp, w1) =>
    if resp.StatusCode ≠ StatusOK then
      (some (.mk ("unexpected status code: " ++ itoa resp.StatusCode)), w1)
    else (none, w1)

/-- The requests a call added to the log: what follows the log before it. -/
def newRequests (before after : World) : List Request :=
  after.drop before.length

/-- The retry condition of the executor's contract: a transport error, a
status of 500 or more, or status 429. -/
def retryable : Except GoError Response → Bool
  | .error _ => true
  | .ok r => decide (r.StatusCode ≥ 500) || decide (r.StatusCode = 429)

/-- The outcome the transport gives to attempt `k` (counting from 0) of a
call to `doRequest` that starts on log `w` with request `req`. -/
def attemptOutcome (t : Transport) (req : Request) (w : World) (k : Nat) :
    Except GoError Response :=
  t (w.length + k) req

/-- The error recorded in `lastErr` for a retried outcome. -/
def retryError : Except GoError Response → GoError
  | .error err => err
  | .ok resp => .mk ("server error: " ++ resp.Status)

/-! ## Concrete inputs used to evaluate the model -/

/-- Go `context.Background()`: never cancelled. -/
def background : Context :=
  { done := fun _ => false, err := .mk "context canceled" }

/-- A server that answers request number `k` with status `codes[k]`, and with
status `last` once the list is used up; every body is an empty JSON object. -/
def scriptedServer (codes : List Int) (last : Int) : Transport := fun k _ =>
  .ok { StatusCode := codes.getD k last, Status := itoa (codes.getD k last), body := .ok "\x7b\x7d" }

/-- Library behaviour for the evaluations: marshalling gives the number of
posts, every URL is accepted, every decoding succeeds with an empty value. -/
def sampleLib : Lib :=
  { jsonMarshal := fun b =>
      match b with
      | .create r => .ok ("create:" ++ natDigits r.Posts.length)
      | .delete r => .ok ("delete:" ++ natDigits r.Posts.length)
    newRequestErr := fun _ _ => none
    base64 := fun x => x
    unmarshalErrResponse := fun _ => .ok { Message := "", Error := "" }
    unmarshalCreate := fun _ => .ok { InsertedPosts := [], FailedPosts := [], Message := "" }
    unmarshalDelete := fun _ => .ok { DeletedPosts := [], FailedPosts := [], Message := "" }
    unmarshalTrim := fun _ => .ok { Message := "", DeletedCount := 0 }
    unmarshalList := fun _ => .ok { Feed := "", Count := 0, Posts := [] } }

/-- Library behaviour as `sampleLib`, except that a URL holding an ASCII
control character (below 0x20, or 0x7f) is refused, as Go's `url.Parse`
refuses it inside `http.NewRequestWithContext`. -/
def controlCheckLib : Lib :=
  { sampleLib with
    newRequestErr := fun _ url =>
      if url.data.any (fun ch => decide (ch.toNat < 32) || decide (ch.toNat = 127)) then
        some (.mk "net/url: invalid control character in URL")
      else none }

def samplePost : Post :=
  { Feed := "at://did:plc:test/app.bsky.feed.generator/test"
    Uri := "at://did:plc:test/app.bsky.feed.post/test"
    Cid := "test-cid"
    IndexedAt := "" }

/-- A caller-written option that asks for five attempts. -/
def withFiveRetries : ClientOption := fun opts =>
  { opts with MaxRetries := 5 }

/-- The three auth options of the package, with their arguments. -/
inductive AuthOption where
  | withToken (token : String)
  | withCloudflareAccess (clientID clientSecret : String)
  | withBasicAuth (username password : String)
  deriving DecidableEq, Repr

/-- The `ClientOption` an auth option stands for. -/
def AuthOption.toClientOption : AuthOption → ClientOption
  | .withToken token => WithToken token
  | .withCloudflareAccess clientID clientSecret => WithCloudflareAccess clientID clientSecret
  | .withBasicAuth username password => WithBasicAuth username password

/-! ## Query strings -/

/-- The path that `TrimWithCount` builds with
`fmt.Sprintf("/feed/trim?feed=%s&within-count=%d", feed, count)`. -/
def trimPath (feed : String) (count : Int) : String :=
  "/feed/trim?feed=" ++ feed ++ "&within-count=" ++ itoa count

/-- The path that `ListPost` builds: `/feed/list?feed=<feed>`, followed by
`&limit=<limit>` when the limit is positive. -/
def listPath (feed : String) (limit : Int) : String :=
  if limit > 0 then "/feed/list?feed=" ++ feed ++ "&limit=" ++ itoa limit
  else "/feed/list?feed=" ++ feed

/-- The text after the first occurrence of `sep` (empty when there is none). -/
def afterFirst (sep : Char) (l : List Char) : List Char :=
  (l.dropWhile (fun c => c ≠ sep)).drop 1

/-- The parameters of a path: the text after its first `?`, split on `&`. -/
def queryParams (path : String) : List String :=
  (splitList '&' (afterFirst '?' path.data)).map String.mk

/-! ## Theorems: the validator -/

theorem splitList_ne_nil (sep : Char) (l : List Char) : splitList sep l ≠ [] := by
  cases l with
  | nil => simp [splitList]
  | cons c cs =>
    simp only [splitList]
    split
    · simp
    · split <;> simp

theorem splitList_append_sep (sep : Char) (a b : List Char) (h : sep ∉ a) :
    splitList sep (a ++ sep :: b) = a :: splitList sep b := by
  induction a with
  | nil => simp [splitList]
  | cons c a ih =>
    have hc : c ≠ sep := fun e => h (by simp [e])
    have ha : sep ∉ a := fun m => h (List.mem_cons_of_mem _ m)
    simp [splitList, hc, ih ha]

theorem splitList_of_not_mem (sep : Char) (a : List Char) (h : sep ∉ a) :
    splitList sep a = [a] := by
  induction a with
  | nil => simp [splitList]
  | cons c a ih =>
    have hc : c ≠ sep := fun e => h (by simp [e])
    have ha : sep ∉ a := fun m => h (List.mem_cons_of_mem _ m)
    simp [splitList, hc, ih ha]

theorem splitList_cons_inv (sep : Char) (l : List Char) :
    ∀ p ps, splitList sep l = p :: ps →
      sep ∉ p ∧ ((ps = [] ∧ l = p) ∨ ∃ rest, l = p ++ sep :: rest ∧ splitList sep rest = ps) := by
  induction l with
  | nil =>
    intro p ps h
    simp [splitList] at h
    obtain ⟨rfl, rfl⟩ := h
    simp
  | cons c cs ih =>
    intro p ps h
    by_cases hc : c = sep
    · simp [splitList, hc] at h
      obtain ⟨rfl, rfl⟩ := h
      exact ⟨by simp, Or.inr ⟨cs, by simp [hc], rfl⟩⟩
    · rcases hq : splitList sep cs with _ | ⟨q, qs⟩
      · exact absurd hq (splitList_ne_nil sep cs)
      · simp [splitList, hc, hq] at h
        obtain ⟨rfl, rfl⟩ := h
        obtain ⟨hn, hrest⟩ := ih q qs hq
        refine ⟨?_, ?_⟩
        · intro m
          rcases List.mem_cons.1 m with e | m
          · exact hc e.symm
          · exact hn m
        · rcases hrest with ⟨rfl, rfl⟩ | ⟨rest, rfl, hr⟩
          · exact Or.inl ⟨rfl, rfl⟩
          · exact Or.inr ⟨rest, by simp, hr⟩

theorem splitList_three_inv (sep : Char) (l a b c : List Char)
    (h : splitList sep l = [a, b, c]) :
    l = a ++ sep :: (b ++ sep :: c) ∧ sep ∉ a ∧ sep ∉ b ∧ sep ∉ c := by
  obtain ⟨ha, h1⟩ := splitList_cons_inv sep l a [b, c] h
  rcases h1 with ⟨h1, _⟩ | ⟨r1, rfl, h1⟩
  · simp at h1
  obtain ⟨hb, h2⟩ := splitList_cons_inv sep r1 b [c] h1
  rcases h2 with ⟨h2, _⟩ | ⟨r2, rfl, h2⟩
  · simp at h2
  obtain ⟨hc, h3⟩ := splitList_cons_inv sep r2 c [] h2
  rcases h3 with ⟨_, rfl⟩ | ⟨r3, rfl, h3⟩
  · exact ⟨rfl, ha, hb, hc⟩
  · exact absurd h3 (splitList_ne_nil sep r3)

theorem splitList_three (sep : Char) (a b c : List Char)
    (ha : sep ∉ a) (hb : sep ∉ b) (hc : sep ∉ c) :
    splitList sep (a ++ sep :: (b ++ sep :: c)) = [a, b, c] := by
  rw [splitList_append_sep sep a _ ha, splitList_append_sep sep b _ hb,
    splitList_of_not_mem sep c hc]


theorem validate_eq_firstFailure (collection idName s : String) :
    AtUri.validate s collection idName = firstFailure collection (idName ++ " is empty") s := by
  unfold AtUri.validate firstFailure uriSegment
  by_cases h1 : s = ""
  · simp [h1]
  by_cases h2 : hasPrefix s "at://" = true
  · simp only [h1, h2, if_false, Bool.not_true]
    unfold uriSegments
    rcases stringsSplit (sliceFrom s 5) '/' with _ | ⟨p0, _ | ⟨p1, _ | ⟨p2, _ | ⟨p3, r⟩⟩⟩⟩ <;> simp
  · simp [h1, h2]

theorem firstFailure_none_iff (collection keyError s : String) :
    firstFailure collection keyError s = none ↔ allRules collection s := by
  unfold firstFailure allRules
  by_cases h1 : s = ""
  · simp [h1]
  by_cases h2 : hasPrefix s "at://" = true
  · by_cases h3 : (uriSegments s).length = 3
    · by_cases h4 : hasPrefix (uriSegment s 0) "did:plc:" = true
      · by_cases h5 : uriSegment s 1 = collection
        · by_cases h6 : uriSegment s 2 = "" <;> simp [h1, h2, h3, h4, h5, h6]
        · simp [h1, h2, h3, h4, h5]
      · simp [h1, h2, h3, h4]
    · simp [h1, h2, h3]
  · simp [h1, h2]

/-- C1: `FeedUri.Validate` (resp. `PostUri.Validate`) returns no error exactly
when the six rules hold (non-empty, scheme prefix `at://`, exactly three
uriSegments, uriSegment 0 starts with `did:plc:`, uriSegment 1 is the collection,
uriSegment 2 non-empty), and otherwise returns the error of the first rule that
fails, in that order. -/
theorem validate_six_rules (s : String) :
    (FeedUri.Validate s = none ↔
      (s ≠ "" ∧ hasPrefix s "at://" = true ∧ (uriSegments s).length = 3 ∧
        hasPrefix (uriSegment s 0) "did:plc:" = true ∧
        uriSegment s 1 = "app.bsky.feed.generator" ∧ uriSegment s 2 ≠ "")) ∧
    (PostUri.Validate s = none ↔
      (s ≠ "" ∧ hasPrefix s "at://" = true ∧ (uriSegments s).length = 3 ∧
        hasPrefix (uriSegment s 0) "did:plc:" = true ∧
        uriSegment s 1 = "app.bsky.feed.post" ∧ uriSegment s 2 ≠ "")) ∧
    FeedUri.Validate s =
      (if s = "" then some (.mk "uri is empty")
       else if hasPrefix s "at://" = false then some (.mk "uri must start with at://")
       else if (uriSegments s).length ≠ 3 then some (.mk "invalid uri format")
       else if hasPrefix (uriSegment s 0) "did:plc:" = false then some (.mk "invalid did format")
       else if uriSegment s 1 ≠ "app.bsky.feed.generator" then some (.mk "invalid collection")
       else if uriSegment s 2 = "" then some (.mk "feed name is empty")
       else none) ∧
    PostUri.Validate s =
      (if s = "" then some (.mk "uri is empty")
       else if hasPrefix s "at://" = false then some (.mk "uri must start with at://")
       else if (uriSegments s).length ≠ 3 then some (.mk "invalid uri format")
       else if hasPrefix (uriSegment s 0) "did:plc:" = false then some (.mk "invalid did format")
       else if uriSegment s 1 ≠ "app.bsky.feed.post" then some (.mk "invalid collection")
       else if uriSegment s 2 = "" then some (.mk "post id is empty")
       else none) := by
  have hf := validate_eq_firstFailure "app.bsky.feed.generator" "feed name" s
  have hp := validate_eq_firstFailure "app.bsky.feed.post" "post id" s
  have e1 : ("feed name" ++ " is empty" : String) = "feed name is empty" := by decide
  have e2 : ("post id" ++ " is empty" : String) = "post id is empty" := by decide
  rw [e1] at hf
  rw [e2] at hp
  refine ⟨?_, ?_, ?_, ?_⟩
  · unfold FeedUri.Validate
    rw [hf]
    exact firstFailure_none_iff _ _ s
  · unfold PostUri.Validate
    rw [hp]
    exact firstFailure_none_iff _ _ s
  · exact hf
  · exact hp

theorem hasPrefix_iff (s p : String) :
    hasPrefix s p = true ↔ ∃ t : List Char, s.data = p.data ++ t := by
  unfold hasPrefix
  rw [List.isPrefixOf_iff_prefix]
  constructor
  · rintro ⟨t, h⟩
    exact ⟨t, h.symm⟩
  · rintro ⟨t, h⟩
    exact ⟨t, h.symm⟩

theorem validate_none_iff_lax (collection idName s : String) (hc : '/' ∉ collection.data) :
    AtUri.validate s collection idName = none ↔ matchesGrammarLax collection s := by
  have e5 : "at://".data = ['a', 't', ':', '/', '/'] := rfl
  have e8 : "did:plc:".data = ['d', 'i', 'd', ':', 'p', 'l', 'c', ':'] := rfl
  constructor
  · intro h
    rw [validate_eq_firstFailure, firstFailure_none_iff] at h
    obtain ⟨_, h2, h3, h4, h5, h6⟩ := h
    obtain ⟨t, ht⟩ := (hasPrefix_iff s "at://").1 h2
    have hsl : (sliceFrom s 5).data = t := by
      simp [sliceFrom, ht, e5]
    unfold uriSegment at h4 h5 h6
    unfold uriSegments stringsSplit at h3 h4 h5 h6
    rw [hsl] at h3 h4 h5 h6
    rcases hsp : splitList '/' t with _ | ⟨a, _ | ⟨b, _ | ⟨c, _ | ⟨d, r⟩⟩⟩⟩ <;>
      rw [hsp] at h3 <;> simp at h3
    rw [hsp] at h4 h5 h6
    simp at h4 h5 h6
    obtain ⟨ht', ha, hb, hcc⟩ := splitList_three_inv '/' t a b c hsp
    obtain ⟨id, hid⟩ := (hasPrefix_iff ⟨a⟩ "did:plc:").1 h4
    simp only at hid
    refine ⟨⟨id⟩, ⟨c⟩, ?_, ?_, hcc, ?_⟩
    · intro m
      exact ha (by rw [hid]; exact List.mem_append_right _ m)
    · intro e
      exact h6 e
    · apply String.ext
      subst h5
      simp [String.data_append, ht, ht', hid]
  · rintro ⟨id, key, hid, hk, hkn, rfl⟩
    have hd : ("at://did:plc:" ++ id ++ "/" ++ collection ++ "/" ++ key).data =
        "at://".data ++ (("did:plc:".data ++ id.data) ++ '/' :: (collection.data ++ '/' :: key.data)) := by
      simp [String.data_append, e5, e8]
    have hne : "at://did:plc:" ++ id ++ "/" ++ collection ++ "/" ++ key ≠ "" := by
      intro e
      have := congrArg String.data e
      rw [hd, e5] at this
      simp at this
    have hpre : hasPrefix ("at://did:plc:" ++ id ++ "/" ++ collection ++ "/" ++ key) "at://" = true :=
      (hasPrefix_iff _ _).2 ⟨_, hd⟩
    have hsl : (sliceFrom ("at://did:plc:" ++ id ++ "/" ++ collection ++ "/" ++ key) 5).data =
        ("did:plc:".data ++ id.data) ++ '/' :: (collection.data ++ '/' :: key.data) := by
      simp only [sliceFrom, hd, e5]
      rfl
    have hdid : '/' ∉ "did:plc:".data ++ id.data := by
      rw [e8]
      intro m
      rcases List.mem_append.1 m with m | m
      · revert m
        decide
      · exact hid m
    have hsp := splitList_three '/' _ _ _ hdid hc hkn
    unfold AtUri.validate stringsSplit
    rw [hsl, hsp]
    have hp0 : hasPrefix ⟨"did:plc:".data ++ id.data⟩ "did:plc:" = true :=
      (hasPrefix_iff _ _).2 ⟨id.data, rfl⟩
    have hkey : (⟨key.data⟩ : String) ≠ "" := by
      intro e
      exact hk e
    have hp0' : hasPrefix ⟨'d' :: 'i' :: 'd' :: ':' :: 'p' :: 'l' :: 'c' :: ':' :: id.data⟩
        "did:plc:" = true := hp0
    simp [hne, hpre, hp0', hkey]

/-- C2 (as stated, refuted): the feed validator accepts
`at://did:plc:/app.bsky.feed.generator/x`, whose text after `did:plc:` is
empty, so the string is not of the grammar with a non-empty id. -/
theorem validate_accepts_empty_did :
    FeedUri.Validate "at://did:plc:/app.bsky.feed.generator/x" = none ∧
    ¬ matchesGrammar "app.bsky.feed.generator" "at://did:plc:/app.bsky.feed.generator/x" := by
  refine ⟨by decide, ?_⟩
  rintro ⟨id, key, hid, hnid, _, _, e⟩
  have h := congrArg String.data e
  have e13 : "at://did:plc:".data =
      ['a', 't', ':', '/', '/', 'd', 'i', 'd', ':', 'p', 'l', 'c', ':'] := rfl
  have el : "at://did:plc:/app.bsky.feed.generator/x".data =
      ['a', 't', ':', '/', '/', 'd', 'i', 'd', ':', 'p', 'l', 'c', ':'] ++
        "/app.bsky.feed.generator/x".data := rfl
  rw [el] at h
  simp only [String.data_append, e13, List.append_assoc] at h
  have h2 := List.append_cancel_left h
  rcases hd : id.data with _ | ⟨c, cs⟩
  · exact hid (String.ext hd)
  · rw [hd] at h2 hnid
    simp only [List.cons_append, List.cons.injEq] at h2
    exact hnid (by simp [← h2.1])

/-- C2 (amended): `FeedUri.Validate` (resp. `PostUri.Validate`) returns no error
exactly when the string is `at://did:plc:` ++ id ++ `/` ++ collection ++ `/` ++ key
with id free of `/` (possibly empty), the collection the fixed one, and key
non-empty and free of `/`. -/
theorem validate_grammar_lax (s : String) :
    (FeedUri.Validate s = none ↔
      ∃ id key : String, '/' ∉ id.data ∧ key ≠ "" ∧ '/' ∉ key.data ∧
        s = "at://did:plc:" ++ id ++ "/" ++ "app.bsky.feed.generator" ++ "/" ++ key) ∧
    (PostUri.Validate s = none ↔
      ∃ id key : String, '/' ∉ id.data ∧ key ≠ "" ∧ '/' ∉ key.data ∧
        s = "at://did:plc:" ++ id ++ "/" ++ "app.bsky.feed.post" ++ "/" ++ key) :=
  ⟨validate_none_iff_lax "app.bsky.feed.generator" "feed name" s (by decide),
   validate_none_iff_lax "app.bsky.feed.post" "post id" s (by decide)⟩

/-! ## Theorems: the retry loop -/

theorem newRequests_append (w l : World) : newRequests w (w ++ l) = l := by
  simp [newRequests]

theorem doRequestFrom_step_retry (t : Transport) (ctx : Context) (req : Request)
    (remaining attempt : Nat) (lastErr : Option GoError) (w : World)
    (hctx : ctx.neverCancelled) (h : retryable (t w.length req) = true) :
    doRequestFrom t ctx req (remaining + 1) attempt lastErr w =
      doRequestFrom t ctx req remaining (attempt + 1) (some (retryError (t w.length req)))
        (w ++ [req]) := by
  rw [doRequestFrom]
  simp only [hctx attempt, httpDo]
  rcases ho : t w.length req with e | r
  · simp [retryError]
  · rw [ho] at h
    have h2 : r.StatusCode ≥ 500 ∨ r.StatusCode = StatusTooManyRequests := by
      simpa [retryable, StatusTooManyRequests] using h
    simp [retryError, h2]

theorem doRequestFrom_step_done (t : Transport) (ctx : Context) (req : Request)
    (remaining attempt : Nat) (lastErr : Option GoError) (w : World) (r : Response)
    (hctx : ctx.neverCancelled) (ho : t w.length req = .ok r)
    (h : retryable (.ok r) = false) :
    doRequestFrom t ctx req (remaining + 1) attempt lastErr w = (.ok r, w ++ [req]) := by
  rw [doRequestFrom]
  simp only [hctx attempt, httpDo, ho]
  have h2 : ¬ (r.StatusCode ≥ 500 ∨ r.StatusCode = StatusTooManyRequests) := by
    simpa [retryable, StatusTooManyRequests] using h
  simp [h2]

theorem doRequestFrom_success (t : Transport) (ctx : Context) (req : Request)
    (hctx : ctx.neverCancelled) (r : Response) :
    ∀ (k remaining attempt : Nat) (lastErr : Option GoError) (w : World),
      k < remaining →
      (∀ j, j < k → retryable (attemptOutcome t req w j) = true) →
      attemptOutcome t req w k = .ok r → retryable (.ok r) = false →
      doRequestFrom t ctx req remaining attempt lastErr w =
        (.ok r, w ++ List.replicate (k + 1) req) := by
  intro k
  induction k with
  | zero =>
    intro remaining attempt lastErr w hk _ ho hr
    obtain ⟨n, rfl⟩ : ∃ n, remaining = n + 1 := ⟨remaining - 1, by omega⟩
    have ho2 : t w.length req = .ok r := by simpa [attemptOutcome] using ho
    simpa using doRequestFrom_step_done t ctx req n attempt lastErr w r hctx ho2 hr
  | succ k ih =>
    intro remaining attempt lastErr w hk hall ho hr
    obtain ⟨n, rfl⟩ : ∃ n, remaining = n + 1 := ⟨remaining - 1, by omega⟩
    have h0 : retryable (t w.length req) = true := by
      simpa [attemptOutcome] using hall 0 (by omega)
    rw [doRequestFrom_step_retry t ctx req n attempt lastErr w hctx h0]
    have hshift : ∀ j, attemptOutcome t req (w ++ [req]) j = attemptOutcome t req w (j + 1) := by
      intro j
      simp [attemptOutcome, Nat.add_assoc, Nat.add_comm 1 j]
    rw [ih n (attempt + 1) _ (w ++ [req]) (by omega)
      (fun j hj => by rw [hshift]; exact hall (j + 1) (by omega))
      (by rw [hshift]; exact ho) hr]
    simp [List.replicate_succ]

theorem doRequestFrom_exhaust (t : Transport) (ctx : Context) (req : Request)
    (hctx : ctx.neverCancelled) :
    ∀ (remaining attempt : Nat) (lastErr : Option GoError) (w : World),
      (∀ j, j < remaining → retryable (attemptOutcome t req w j) = true) →
      doRequestFrom t ctx req remaining attempt lastErr w =
        (.error (errorfW "max retries exceeded: "
          (if remaining = 0 then lastErr
           else some (retryError (attemptOutcome t req w (remaining - 1))))),
         w ++ List.replicate remaining req) := by
  intro remaining
  induction remaining with
  | zero =>
    intro attempt lastErr w _
    simp [doRequestFrom]
  | succ n ih =>
    intro attempt lastErr w hall
    have h0 : retryable (t w.length req) = true := by
      simpa [attemptOutcome] using hall 0 (by omega)
    rw [doRequestFrom_step_retry t ctx req n attempt lastErr w hctx h0]
    have hshift : ∀ j, attemptOutcome t req (w ++ [req]) j = attemptOutcome t req w (j + 1) := by
      intro j
      simp [attemptOutcome, Nat.add_assoc, Nat.add_comm 1 j]
    rw [ih (attempt + 1) _ (w ++ [req]) (fun j hj => by rw [hshift]; exact hall (j + 1) (by omega))]
    rcases n with _ | m
    · simp [attemptOutcome]
    · simp [hshift, List.replicate_succ]

theorem doRequestFrom_log (t : Transport) (ctx : Context) (req : Request) :
    ∀ (remaining attempt : Nat) (lastErr : Option GoError) (w : World),
      ∃ n, n ≤ remaining ∧
        (doRequestFrom t ctx req remaining attempt lastErr w).2 = w ++ List.replicate n req := by
  intro remaining
  induction remaining with
  | zero =>
    intro attempt lastErr w
    exact ⟨0, le_refl _, by simp [doRequestFrom]⟩
  | succ n ih =>
    intro attempt lastErr w
    rw [doRequestFrom]
    by_cases hc : attempt > 0 ∧ ctx.done attempt = true
    · exact ⟨0, by omega, by simp [hc]⟩
    · simp only [hc, if_false, httpDo]
      rcases t w.length req with e | r
      · obtain ⟨m, hm, he⟩ := ih (attempt + 1) (some e) (w ++ [req])
        exact ⟨m + 1, by omega, by simp [he, List.replicate_succ]⟩
      · by_cases hs : r.StatusCode ≥ 500 ∨ r.StatusCode = StatusTooManyRequests
        · obtain ⟨m, hm, he⟩ := ih (attempt + 1)
            (some (.mk ("server error: " ++ r.Status))) (w ++ [req])
          exact ⟨m + 1, by omega, by simp [hs, he, List.replicate_succ]⟩
        · exact ⟨1, by omega, by simp [hs]⟩

theorem retryable_false_iff (o : Except GoError Response) :
    retryable o = false ↔ ∃ r, o = .ok r ∧ r.StatusCode < 500 ∧ r.StatusCode ≠ 429 := by
  rcases o with e | r
  · simp [retryable]
  · simp [retryable]

theorem doRequest_sent (c : Client) (t : Transport) (ctx : Context) (req : Request) (w : World)
    (hctx : ctx.neverCancelled) :
    ∃ n, (Client.doRequest c t ctx req w).2 = w ++ List.replicate n req ∧ 1 ≤ n ∧ n ≤ 3 ∧
      (∀ j, j + 1 < n → retryable (attemptOutcome t req w j) = true) ∧
      (n < 3 → retryable (attemptOutcome t req w (n - 1)) = false) := by
  unfold Client.doRequest maxRetries
  by_cases h0 : retryable (attemptOutcome t req w 0) = true
  · by_cases h1 : retryable (attemptOutcome t req w 1) = true
    · by_cases h2 : retryable (attemptOutcome t req w 2) = true
      · refine ⟨3, ?_, by omega, by omega, ?_, by omega⟩
        · rw [doRequestFrom_exhaust t ctx req hctx 3 0 none w (fun j hj => by
            rcases j with _ | _ | _ | j
            · exact h0
            · exact h1
            · exact h2
            · omega)]
        · intro j hj
          rcases j with _ | _ | j
          · exact h0
          · exact h1
          · omega
      · simp only [Bool.not_eq_true] at h2
        obtain ⟨r, hr, _⟩ := (retryable_false_iff _).1 h2
        refine ⟨3, ?_, by omega, by omega, ?_, by omega⟩
        · rw [doRequestFrom_success t ctx req hctx r 2 3 0 none w (by omega) (fun j hj => by
            rcases j with _ | _ | j
            · exact h0
            · exact h1
            · omega) hr (by rw [← hr]; exact h2)]
        · intro j hj
          rcases j with _ | _ | j
          · exact h0
          · exact h1
          · omega
    · simp only [Bool.not_eq_true] at h1
      obtain ⟨r, hr, _⟩ := (retryable_false_iff _).1 h1
      refine ⟨2, ?_, by omega, by omega, ?_, fun _ => h1⟩
      · rw [doRequestFrom_success t ctx req hctx r 1 3 0 none w (by omega) (fun j hj => by
          rcases j with _ | j
          · exact h0
          · omega) hr (by rw [← hr]; exact h1)]
      · intro j hj
        rcases j with _ | j
        · exact h0
        · omega
  · simp only [Bool.not_eq_true] at h0
    obtain ⟨r, hr, _⟩ := (retryable_false_iff _).1 h0
    refine ⟨1, ?_, by omega, by omega, ?_, fun _ => h0⟩
    · rw [doRequestFrom_success t ctx req hctx r 0 3 0 none w (by omega)
        (fun j hj => by omega) hr (by rw [← hr]; exact h0)]
    · intro j hj
      omega

/-- C3 (as stated, refuted): against a server that always answers 500, the
third attempt is a status 500 and yet no fourth attempt follows: exactly three
requests are sent. -/
theorem third_attempt_not_followed :
    retryable (attemptOutcome (scriptedServer [] 500)
      (Client.pingRequest (NewClient "http://localhost" [])) [] 2) = true ∧
    (newRequests []
      (Client.doRequest (NewClient "http://localhost" []) (scriptedServer [] 500) background
        (Client.pingRequest (NewClient "http://localhost" [])) []).2).length = 3 := by
  constructor
  · rfl
  · rfl

/-- C3 (amended): with a context that is never cancelled, `doRequest` returns,
with no error, the first outcome that is a response with status below 500 and
other than 429 when it occurs among the first 3 attempts, having sent exactly
one request per attempt up to it; an attempt before the third is followed by
another one exactly when its outcome was a transport error, a status of 500 or
more, or status 429, and the third attempt is never followed by another.  So
500, 500, 200 gives success after exactly 3 requests, and a 4xx other than 429
on the first attempt is returned after 1 request. -/
theorem doRequest_retry_policy (c : Client) (t : Transport) (ctx : Context) (req : Request)
    (w : World) (hctx : ctx.neverCancelled) :
    (∀ k r, k < 3 →
      (∀ j, j < k → retryable (attemptOutcome t req w j) = true) →
      attemptOutcome t req w k = .ok r → r.StatusCode < 500 → r.StatusCode ≠ 429 →
      Client.doRequest c t ctx req w = (.ok r, w ++ List.replicate (k + 1) req)) ∧
    (0 < (newRequests w (Client.doRequest c t ctx req w).2).length ∧
      ∀ k, k < (newRequests w (Client.doRequest c t ctx req w).2).length →
        (k + 1 < (newRequests w (Client.doRequest c t ctx req w).2).length ↔
          (retryable (attemptOutcome t req w k) = true ∧ k + 1 < 3))) ∧
    (∀ r0 r1 r2, attemptOutcome t req w 0 = .ok r0 → r0.StatusCode = 500 →
      attemptOutcome t req w 1 = .ok r1 → r1.StatusCode = 500 →
      attemptOutcome t req w 2 = .ok r2 → r2.StatusCode = 200 →
      Client.doRequest c t ctx req w = (.ok r2, w ++ [req, req, req])) ∧
    (∀ r0, attemptOutcome t req w 0 = .ok r0 → 400 ≤ r0.StatusCode → r0.StatusCode < 500 →
      r0.StatusCode ≠ 429 →
      Client.doRequest c t ctx req w = (.ok r0, w ++ [req])) := by
  have hsucc : ∀ k r, k < 3 →
      (∀ j, j < k → retryable (attemptOutcome t req w j) = true) →
      attemptOutcome t req w k = .ok r → r.StatusCode < 500 → r.StatusCode ≠ 429 →
      Client.doRequest c t ctx req w = (.ok r, w ++ List.replicate (k + 1) req) := by
    intro k r hk hall ho h5 h429
    exact doRequestFrom_success t ctx req hctx r k 3 0 none w hk hall ho
      ((retryable_false_iff _).2 ⟨r, rfl, h5, h429⟩)
  refine ⟨hsucc, ?_, ?_, ?_⟩
  · obtain ⟨n, hw, h1, h3, hall, hlast⟩ := doRequest_sent c t ctx req w hctx
    rw [hw, newRequests_append, List.length_replicate]
    refine ⟨by omega, ?_⟩
    intro k hk
    constructor
    · intro hk1
      exact ⟨hall k hk1, by omega⟩
    · rintro ⟨hr, hk3⟩
      by_contra hcon
      have hn : n = k + 1 := by omega
      have := hlast (by omega)
      rw [hn] at this
      simp only [Nat.add_sub_cancel] at this
      rw [this] at hr
      exact Bool.false_ne_true hr
  · intro r0 r1 r2 ho0 hs0 ho1 hs1 ho2 hs2
    have := hsucc 2 r2 (by omega) (fun j hj => by
      rcases j with _ | _ | j
      · rw [ho0]
        simp [retryable, hs0]
      · rw [ho1]
        simp [retryable, hs1]
      · omega) ho2 (by omega) (by omega)
    simpa [List.replicate] using this
  · intro r0 ho0 _ h5 h429
    have := hsucc 0 r0 (by omega) (fun j hj => by omega) ho0 h5 h429
    simpa [List.replicate] using this

/-- Witness of C3 (amended): a server answering 500, 500, 200 under a background context:
the 200 response is returned after exactly three requests. -/
theorem doRequest_retry_policy_witness :
    background.neverCancelled ∧
    Client.doRequest (NewClient "http://localhost" []) (scriptedServer [500, 500] 200)
        background (Client.pingRequest (NewClient "http://localhost" [])) [] =
      (.ok { StatusCode := 200, Status := "200", body := .ok "\x7b\x7d" },
        [] ++ [Client.pingRequest (NewClient "http://localhost" []),
          Client.pingRequest (NewClient "http://localhost" []),
          Client.pingRequest (NewClient "http://localhost" [])]) :=
  ⟨fun _ => rfl,
    (doRequest_retry_policy (NewClient "http://localhost" []) (scriptedServer [500, 500] 200)
      background (Client.pingRequest (NewClient "http://localhost" [])) []
      (fun _ => rfl)).2.2.1
      { StatusCode := 500, Status := "500", body := .ok "\x7b\x7d" }
      { StatusCode := 500, Status := "500", body := .ok "\x7b\x7d" }
      { StatusCode := 200, Status := "200", body := .ok "\x7b\x7d" }
      rfl rfl rfl rfl rfl rfl⟩

/-- With a context that is never cancelled and a server whose answers to the
three attempts all have status 500, `doRequest` sends exactly three requests
and returns `max retries exceeded` wrapping the last server error, whatever
the client's configuration. -/
theorem doRequest_all_500 (c : Client) (t : Transport) (ctx : Context) (req : Request)
    (w : World) (hctx : ctx.neverCancelled)
    (h : ∀ k, k < 3 → ∃ r, attemptOutcome t req w k = .ok r ∧ r.StatusCode = 500) :
    ∃ r, attemptOutcome t req w 2 = .ok r ∧
      Client.doRequest c t ctx req w =
        (.error (.wrap "max retries exceeded: " (.mk ("server error: " ++ r.Status))),
          w ++ [req, req, req]) := by
  obtain ⟨r, hr, _⟩ := h 2 (by omega)
  refine ⟨r, hr, ?_⟩
  unfold Client.doRequest maxRetries
  rw [doRequestFrom_exhaust t ctx req hctx 3 0 none w (fun j hj => by
    obtain ⟨r', hr', hs⟩ := h j hj
    rw [hr']
    simp [retryable, hs])]
  simp [hr, retryError, errorfW, List.replicate]

/-- C4 (code evaluated at the failing input): a client whose options ask for
five attempts, against a server that always answers 500, sends exactly three
requests through the request executor before giving up. -/
theorem maxRetries_option_ignored :
    (NewClient "http://localhost" [withFiveRetries]).config.MaxRetries = 5 ∧
    Client.RequestWithResponse sampleLib (NewClient "http://localhost" [withFiveRetries])
        (scriptedServer [] 500) background "GET" "/" none sampleLib.unmarshalTrim [] =
      (.error (.wrap "request failed: "
          (.wrap "max retries exceeded: " (.mk "server error: 500"))),
        List.replicate 3
          (Client.buildRequest sampleLib (NewClient "http://localhost" [withFiveRetries])
            "GET" "/" none)) := by
  constructor
  · rfl
  · rfl

/-! ## Theorems: the requests that reach the network -/

theorem doRequest_log (c : Client) (t : Transport) (ctx : Context) (req : Request) (w : World) :
    ∃ n, 1 ≤ n ∧ n ≤ 3 ∧ (Client.doRequest c t ctx req w).2 = w ++ List.replicate n req := by
  unfold Client.doRequest maxRetries
  rw [doRequestFrom]
  simp only [gt_iff_lt, Nat.lt_irrefl, false_and, if_false, httpDo]
  rcases t w.length req with e | r
  · obtain ⟨m, hm, he⟩ := doRequestFrom_log t ctx req 2 1 (some e) (w ++ [req])
    exact ⟨m + 1, by omega, by omega, by simp [he, List.replicate_succ]⟩
  · by_cases hs : r.StatusCode ≥ 500 ∨ r.StatusCode = StatusTooManyRequests
    · obtain ⟨m, hm, he⟩ := doRequestFrom_log t ctx req 2 1
        (some (.mk ("server error: " ++ r.Status))) (w ++ [req])
      exact ⟨m + 1, by omega, by omega, by simp [hs, he, List.replicate_succ]⟩
    · exact ⟨1, by omega, by omega, by simp [hs]⟩

theorem RequestWithResponse_world {ρ : Type} (L : Lib) (c : Client) (t : Transport)
    (ctx : Context) (method path : String) (body : Option Body)
    (decode : String → Except GoError ρ) (w : World) :
    (Client.RequestWithResponse L c t ctx method path body decode w).2 =
      match marshalBody L body with
      | .error _ => w
      | .ok bodyReader =>
        match L.newRequestErr method (c.BaseURL ++ path) with
        | some _ => w
        | none =>
          (Client.doRequest c t ctx (Client.buildRequest L c method path bodyReader) w).2 := by
  unfold Client.RequestWithResponse
  rcases marshalBody L body with e | bodyReader
  · rfl
  · rcases L.newRequestErr method (c.BaseURL ++ path) with _ | e
    · simp only
      rcases Client.doRequest c t ctx (Client.buildRequest L c method path bodyReader) w
        with ⟨res, w1⟩
      rcases res with e | resp
      · rfl
      · simp only
        rcases readAllLimited resp with e | bodyBytes
        · rfl
        · simp only
          split
          · split <;> rfl
          · split <;> rfl
    · rfl

theorem RequestWithResponse_requests {ρ : Type} (L : Lib) (c : Client) (t : Transport)
    (ctx : Context) (method path : String) (body : Option Body)
    (decode : String → Except GoError ρ) (w : World) (r : Request)
    (hr : r ∈ newRequests w (Client.RequestWithResponse L c t ctx method path body decode w).2) :
    ∃ bodyReader, marshalBody L body = .ok bodyReader ∧
      r = Client.buildRequest L c method path bodyReader := by
  rw [RequestWithResponse_world] at hr
  rcases hm : marshalBody L body with e | bodyReader
  · rw [hm] at hr
    simp [newRequests] at hr
  · rw [hm] at hr
    rcases hn : L.newRequestErr method (c.BaseURL ++ path) with _ | e
    · rw [hn] at hr
      obtain ⟨n, _, _, hw⟩ :=
        doRequest_log c t ctx (Client.buildRequest L c method path bodyReader) w
      simp only at hr
      rw [hw, newRequests_append] at hr
      exact ⟨bodyReader, rfl, (List.mem_replicate.1 hr).2⟩
    · rw [hn] at hr
      simp [newRequests] at hr

theorem RequestWithResponse_issues {ρ : Type} (L : Lib) (c : Client) (t : Transport)
    (ctx : Context) (method path : String) (body : Option Body)
    (decode : String → Except GoError ρ) (w : World) (bodyReader : Option String)
    (hm : marshalBody L body = .ok bodyReader)
    (hn : L.newRequestErr method (c.BaseURL ++ path) = none) :
    ∃ n, 1 ≤ n ∧ n ≤ 3 ∧
      newRequests w (Client.RequestWithResponse L c t ctx method path body decode w).2 =
        List.replicate n (Client.buildRequest L c method path bodyReader) := by
  rw [RequestWithResponse_world, hm]
  simp only [hn]
  obtain ⟨n, h1, h3, hw⟩ :=
    doRequest_log c t ctx (Client.buildRequest L c method path bodyReader) w
  exact ⟨n, h1, h3, by rw [hw, newRequests_append]⟩

theorem returnResponse_world {ρ : Type} (r : Except GoError ρ × World) :
    (returnResponse r).2 = r.2 := by
  rcases r with ⟨res, w⟩
  rcases res with e | v <;> rfl

theorem newRequests_self (w : World) : newRequests w w = [] := by
  simp [newRequests]

theorem Add_requests (L : Lib) (c : Client) (t : Transport) (ctx : Context)
    (posts : List Post) (w : World) (r : Request)
    (hr : r ∈ newRequests w (Client.Add L c t ctx posts w).2) :
    1 ≤ posts.length ∧ posts.length ≤ 40 ∧
      ∃ bodyReader, marshalBody L (some (.create { Posts := posts })) = .ok bodyReader ∧
        r = Client.buildRequest L c "POST" "/feed/add" bodyReader := by
  unfold Client.Add at hr
  split_ifs at hr with h0 h40
  · simp [newRequests_self] at hr
  · simp [newRequests_self] at hr
  · rw [returnResponse_world] at hr
    exact ⟨by omega, by omega, RequestWithResponse_requests _ _ _ _ _ _ _ _ _ _ hr⟩

theorem Delete_requests (L : Lib) (c : Client) (t : Transport) (ctx : Context)
    (posts : List Post) (w : World) (r : Request)
    (hr : r ∈ newRequests w (Client.Delete L c t ctx posts w).2) :
    1 ≤ posts.length ∧ posts.length ≤ 40 ∧
      ∃ bodyReader, marshalBody L (some (.delete { Posts := posts })) = .ok bodyReader ∧
        r = Client.buildRequest L c "POST" "/feed/delete" bodyReader := by
  unfold Client.Delete at hr
  split_ifs at hr with h0 h40
  · simp [newRequests_self] at hr
  · simp [newRequests_self] at hr
  · rw [returnResponse_world] at hr
    exact ⟨by omega, by omega, RequestWithResponse_requests _ _ _ _ _ _ _ _ _ _ hr⟩

theorem TrimWithCount_requests (L : Lib) (c : Client) (t : Transport) (ctx : Context)
    (feed : String) (count : Int) (w : World) (r : Request)
    (hr : r ∈ newRequests w (Client.TrimWithCount L c t ctx feed count w).2) :
    0 ≤ count ∧ FeedUri.Validate feed = none ∧
      r = Client.buildRequest L c "GET"
        ("/feed/trim?feed=" ++ feed ++ "&within-count=" ++ itoa count) none := by
  unfold Client.TrimWithCount at hr
  split_ifs at hr with h0
  · simp [newRequests_self] at hr
  · rcases hv : FeedUri.Validate feed with _ | e
    · rw [hv] at hr
      simp only at hr
      rw [returnResponse_world] at hr
      obtain ⟨br, hm, he⟩ := RequestWithResponse_requests _ _ _ _ _ _ _ _ _ _ hr
      simp only [marshalBody, Except.ok.injEq] at hm
      subst hm
      exact ⟨by omega, rfl, he⟩
    · rw [hv] at hr
      simp [newRequests_self] at hr

theorem ListPost_requests (L : Lib) (c : Client) (t : Transport) (ctx : Context)
    (feed : String) (limit : Int) (w : World) (r : Request)
    (hr : r ∈ newRequests w (Client.ListPost L c t ctx feed limit w).2) :
    FeedUri.Validate feed = none ∧
      r = Client.buildRequest L c "GET"
        (if limit > 0 then "/feed/list?feed=" ++ feed ++ "&limit=" ++ itoa limit
         else "/feed/list?feed=" ++ feed) none := by
  unfold Client.ListPost at hr
  rcases hv : FeedUri.Validate feed with _ | e
  · rw [hv] at hr
    simp only at hr
    rw [returnResponse_world] at hr
    obtain ⟨br, hm, he⟩ := RequestWithResponse_requests _ _ _ _ _ _ _ _ _ _ hr
    simp only [marshalBody, Except.ok.injEq] at hm
    subst hm
    exact ⟨rfl, he⟩
  · rw [hv] at hr
    simp [newRequests_self] at hr

theorem Ping_requests (c : Client) (t : Transport) (ctx : Context) (w : World) (r : Request)
    (hr : r ∈ newRequests w (Client.Ping c t ctx w).2) :
    r = Client.pingRequest c := by
  have hw : (Client.Ping c t ctx w).2 = (Client.doRequest c t ctx (Client.pingRequest c) w).2 := by
    unfold Client.Ping
    rcases Client.doRequest c t ctx (Client.pingRequest c) w with ⟨res, w1⟩
    rcases res with e | resp
    · rfl
    · simp only
      split <;> rfl
  rw [hw] at hr
  obtain ⟨n, _, _, hn⟩ := doRequest_log c t ctx (Client.pingRequest c) w
  rw [hn, newRequests_append] at hr
  exact (List.mem_replicate.1 hr).2

theorem buildRequest_bearer (L : Lib) (base token method path : String)
    (bodyReader : Option String) (h : token ≠ "") :
    StrMap.lookup (Client.buildRequest L (NewClient base [WithToken token]) method path
      bodyReader).Header "Authorization" = some ("Bearer " ++ token) := by
  simp [Client.buildRequest, Client.applyAuth, NewClient, applyOptions, WithToken,
    DefaultClientOptions, StrMap.set, StrMap.get, StrMap.lookup, h, List.lookup]

theorem buildRequest_empty_token (L : Lib) (base method path : String)
    (bodyReader : Option String) :
    StrMap.lookup (Client.buildRequest L (NewClient base [WithToken ""]) method path
      bodyReader).Header "Authorization" = none := by
  simp [Client.buildRequest, Client.applyAuth, NewClient, applyOptions, WithToken,
    DefaultClientOptions, StrMap.set, StrMap.get, StrMap.lookup, List.lookup]

theorem buildRequest_noAuth (L : Lib) (base method path : String)
    (bodyReader : Option String) :
    StrMap.lookup (Client.buildRequest L (NewClient base []) method path
      bodyReader).Header "Authorization" = none := by
  simp [Client.buildRequest, Client.applyAuth, NewClient, applyOptions,
    DefaultClientOptions, StrMap.set, StrMap.lookup, List.lookup]

/-! ## Theorems: authentication -/

/-- C5 (as stated, refuted): with `WithToken("")` the request that `Add` sends
carries no `Authorization` header, and with `WithToken("test-token")` the
request that `Ping` sends carries none either. -/
theorem bearer_header_missing :
    (newRequests []
        (Client.Add sampleLib (NewClient "http://localhost" [WithToken ""])
          (scriptedServer [] 200) background [samplePost] []).2 =
        [Client.buildRequest sampleLib (NewClient "http://localhost" [WithToken ""])
          "POST" "/feed/add" (some "create:1")] ∧
      StrMap.lookup
        (Client.buildRequest sampleLib (NewClient "http://localhost" [WithToken ""])
          "POST" "/feed/add" (some "create:1")).Header "Authorization" = none) ∧
    (newRequests []
        (Client.Ping (NewClient "http://localhost" [WithToken "test-token"])
          (scriptedServer [] 200) background []).2 =
        [Client.pingRequest (NewClient "http://localhost" [WithToken "test-token"])] ∧
      StrMap.lookup
        (Client.pingRequest (NewClient "http://localhost" [WithToken "test-token"])).Header
        "Authorization" = none) := by
  refine ⟨⟨?_, ?_⟩, ⟨?_, ?_⟩⟩
  · rfl
  · decide
  · rfl
  · decide

/-- C5 (amended): with a non-empty token as the only auth option, every request
sent by `Add`, `Delete`, `ListPost` and `TrimWithCount` carries
`Authorization: Bearer <token>`; with an empty token these requests carry no
`Authorization` header; and a client built with no auth option sends no
`Authorization` header on any request, `Ping` included. -/
theorem bearer_token_stamped (L : Lib) (base token : String) (t : Transport) (ctx : Context)
    (w : World) :
    (token ≠ "" → ∀ r : Request,
      (∀ posts, r ∈ newRequests w
          (Client.Add L (NewClient base [WithToken token]) t ctx posts w).2 →
        StrMap.lookup r.Header "Authorization" = some ("Bearer " ++ token)) ∧
      (∀ posts, r ∈ newRequests w
          (Client.Delete L (NewClient base [WithToken token]) t ctx posts w).2 →
        StrMap.lookup r.Header "Authorization" = some ("Bearer " ++ token)) ∧
      (∀ feed limit, r ∈ newRequests w
          (Client.ListPost L (NewClient base [WithToken token]) t ctx feed limit w).2 →
        StrMap.lookup r.Header "Authorization" = some ("Bearer " ++ token)) ∧
      (∀ feed count, r ∈ newRequests w
          (Client.TrimWithCount L (NewClient base [WithToken token]) t ctx feed count w).2 →
        StrMap.lookup r.Header "Authorization" = some ("Bearer " ++ token))) ∧
    (∀ r : Request,
      (∀ posts, r ∈ newRequests w
          (Client.Add L (NewClient base [WithToken ""]) t ctx posts w).2 →
        StrMap.lookup r.Header "Authorization" = none) ∧
      (∀ posts, r ∈ newRequests w
          (Client.Delete L (NewClient base [WithToken ""]) t ctx posts w).2 →
        StrMap.lookup r.Header "Authorization" = none) ∧
      (∀ feed limit, r ∈ newRequests w
          (Client.ListPost L (NewClient base [WithToken ""]) t ctx feed limit w).2 →
        StrMap.lookup r.Header "Authorization" = none) ∧
      (∀ feed count, r ∈ newRequests w
          (Client.TrimWithCount L (NewClient base [WithToken ""]) t ctx feed count w).2 →
        StrMap.lookup r.Header "Authorization" = none)) ∧
    (∀ r : Request,
      (∀ posts, r ∈ newRequests w (Client.Add L (NewClient base []) t ctx posts w).2 →
        StrMap.lookup r.Header "Authorization" = none) ∧
      (∀ posts, r ∈ newRequests w (Client.Delete L (NewClient base []) t ctx posts w).2 →
        StrMap.lookup r.Header "Authorization" = none) ∧
      (∀ feed limit, r ∈ newRequests w
          (Client.ListPost L (NewClient base []) t ctx feed limit w).2 →
        StrMap.lookup r.Header "Authorization" = none) ∧
      (∀ feed count, r ∈ newRequests w
          (Client.TrimWithCount L (NewClient base []) t ctx feed count w).2 →
        StrMap.lookup r.Header "Authorization" = none) ∧
      (r ∈ newRequests w (Client.Ping (NewClient base []) t ctx w).2 →
        StrMap.lookup r.Header "Authorization" = none)) := by
  refine ⟨fun htok r => ⟨?_, ?_, ?_, ?_⟩, fun r => ⟨?_, ?_, ?_, ?_⟩,
    fun r => ⟨?_, ?_, ?_, ?_, ?_⟩⟩
  · intro posts hr
    obtain ⟨_, _, br, _, rfl⟩ := Add_requests _ _ _ _ _ _ _ hr
    exact buildRequest_bearer _ _ _ _ _ _ htok
  · intro posts hr
    obtain ⟨_, _, br, _, rfl⟩ := Delete_requests _ _ _ _ _ _ _ hr
    exact buildRequest_bearer _ _ _ _ _ _ htok
  · intro feed limit hr
    obtain ⟨_, rfl⟩ := ListPost_requests _ _ _ _ _ _ _ _ hr
    exact buildRequest_bearer _ _ _ _ _ _ htok
  · intro feed count hr
    obtain ⟨_, _, rfl⟩ := TrimWithCount_requests _ _ _ _ _ _ _ _ hr
    exact buildRequest_bearer _ _ _ _ _ _ htok
  · intro posts hr
    obtain ⟨_, _, br, _, rfl⟩ := Add_requests _ _ _ _ _ _ _ hr
    exact buildRequest_empty_token _ _ _ _ _
  · intro posts hr
    obtain ⟨_, _, br, _, rfl⟩ := Delete_requests _ _ _ _ _ _ _ hr
    exact buildRequest_empty_token _ _ _ _ _
  · intro feed limit hr
    obtain ⟨_, rfl⟩ := ListPost_requests _ _ _ _ _ _ _ _ hr
    exact buildRequest_empty_token _ _ _ _ _
  · intro feed count hr
    obtain ⟨_, _, rfl⟩ := TrimWithCount_requests _ _ _ _ _ _ _ _ hr
    exact buildRequest_empty_token _ _ _ _ _
  · intro posts hr
    obtain ⟨_, _, br, _, rfl⟩ := Add_requests _ _ _ _ _ _ _ hr
    exact buildRequest_noAuth _ _ _ _ _
  · intro posts hr
    obtain ⟨_, _, br, _, rfl⟩ := Delete_requests _ _ _ _ _ _ _ hr
    exact buildRequest_noAuth _ _ _ _ _
  · intro feed limit hr
    obtain ⟨_, rfl⟩ := ListPost_requests _ _ _ _ _ _ _ _ hr
    exact buildRequest_noAuth _ _ _ _ _
  · intro feed count hr
    obtain ⟨_, _, rfl⟩ := TrimWithCount_requests _ _ _ _ _ _ _ _ hr
    exact buildRequest_noAuth _ _ _ _ _
  · intro hr
    rw [Ping_requests _ _ _ _ _ hr]
    rfl

/-- Witness of C5: with the token `test-token`, the request that `Add` sends for
one post carries `Authorization: Bearer test-token`. -/
theorem bearer_token_stamped_witness :
    "test-token" ≠ "" ∧
    Client.buildRequest sampleLib (NewClient "http://localhost" [WithToken "test-token"])
        "POST" "/feed/add" (some "create:1") ∈
      newRequests []
        (Client.Add sampleLib (NewClient "http://localhost" [WithToken "test-token"])
          (scriptedServer [] 200) background [samplePost] []).2 ∧
    StrMap.lookup
      (Client.buildRequest sampleLib (NewClient "http://localhost" [WithToken "test-token"])
        "POST" "/feed/add" (some "create:1")).Header "Authorization" =
      some ("Bearer " ++ "test-token") :=
  ⟨by decide, by decide,
    (((bearer_token_stamped sampleLib "http://localhost" "test-token" (scriptedServer [] 200)
      background []).1 (by decide)) _).1 [samplePost] (by decide)⟩

/-! ## Theorems: batches -/

theorem buildRequest_fields (L : Lib) (c : Client) (method path : String)
    (bodyReader : Option String) :
    (Client.buildRequest L c method path bodyReader).Method = method ∧
    (Client.buildRequest L c method path bodyReader).url = .parse (c.BaseURL ++ path) ∧
    (Client.buildRequest L c method path bodyReader).body = bodyReader := by
  unfold Client.buildRequest Client.applyAuth
  rcases c.config.Auth.authType with _ | _ | _ | _
  · simp
  · simp
  · simp only
    split <;> simp
  · simp [Request.SetBasicAuth]

/-- C6: with more than 40 posts `Add` and `Delete` return the error
`too many posts: <n> (max 40)` with a nil response and leave the request log
untouched; with 1 to 40 posts they hand exactly the caller's list, in order, to
the request executor, and every request they send carries the JSON of that
list. -/
theorem add_delete_batch_limit (L : Lib) (c : Client) (t : Transport) (ctx : Context)
    (posts : List Post) (w : World) :
    (posts.length > 40 →
      Client.Add L c t ctx posts w =
        ((none, some (.mk ("too many posts: " ++ natDigits posts.length ++ " (max 40)"))), w) ∧
      Client.Delete L c t ctx posts w =
        ((none, some (.mk ("too many posts: " ++ natDigits posts.length ++ " (max 40)"))), w)) ∧
    (1 ≤ posts.length → posts.length ≤ 40 →
      Client.Add L c t ctx posts w =
        returnResponse (Client.RequestWithResponse L c t ctx "POST" "/feed/add"
          (some (.create { Posts := posts })) L.unmarshalCreate w) ∧
      Client.Delete L c t ctx posts w =
        returnResponse (Client.RequestWithResponse L c t ctx "POST" "/feed/delete"
          (some (.delete { Posts := posts })) L.unmarshalDelete w)) ∧
    (∀ r, r ∈ newRequests w (Client.Add L c t ctx posts w).2 →
      1 ≤ posts.length ∧ posts.length ≤ 40 ∧
        ∃ jsonData, L.jsonMarshal (.create { Posts := posts }) = .ok jsonData ∧
          r.body = some jsonData) ∧
    (∀ r, r ∈ newRequests w (Client.Delete L c t ctx posts w).2 →
      1 ≤ posts.length ∧ posts.length ≤ 40 ∧
        ∃ jsonData, L.jsonMarshal (.delete { Posts := posts }) = .ok jsonData ∧
          r.body = some jsonData) := by
  refine ⟨?_, ?_, ?_, ?_⟩
  · intro h
    have h0 : ¬ posts.length = 0 := by omega
    constructor
    · simp [Client.Add, h0, h]
    · simp [Client.Delete, h0, h]
  · intro h1 h40
    have h0 : ¬ posts.length = 0 := by omega
    have h41 : ¬ posts.length > 40 := by omega
    constructor
    · simp only [Client.Add, h0, h41, if_false]
    · simp only [Client.Delete, h0, h41, if_false]
  · intro r hr
    obtain ⟨h1, h40, br, hm, rfl⟩ := Add_requests _ _ _ _ _ _ _ hr
    refine ⟨h1, h40, ?_⟩
    simp only [marshalBody] at hm
    rcases hj : L.jsonMarshal (.create { Posts := posts }) with e | j
    · rw [hj] at hm
      simp at hm
    · rw [hj] at hm
      simp only [Except.ok.injEq] at hm
      exact ⟨j, rfl, by rw [(buildRequest_fields _ _ _ _ _).2.2, hm]⟩
  · intro r hr
    obtain ⟨h1, h40, br, hm, rfl⟩ := Delete_requests _ _ _ _ _ _ _ hr
    refine ⟨h1, h40, ?_⟩
    simp only [marshalBody] at hm
    rcases hj : L.jsonMarshal (.delete { Posts := posts }) with e | j
    · rw [hj] at hm
      simp at hm
    · rw [hj] at hm
      simp only [Except.ok.injEq] at hm
      exact ⟨j, rfl, by rw [(buildRequest_fields _ _ _ _ _).2.2, hm]⟩

/-- Witness of C6: 41 posts are refused by `Add` and `Delete` with the count
error and nothing is sent. -/
theorem add_delete_batch_limit_witness :
    (List.replicate 41 samplePost).length > 40 ∧
    Client.Add sampleLib (NewClient "http://localhost" []) (scriptedServer [] 200) background
        (List.replicate 41 samplePost) [] =
      ((none, some (.mk "too many posts: 41 (max 40)")), []) ∧
    Client.Delete sampleLib (NewClient "http://localhost" []) (scriptedServer [] 200)
        background (List.replicate 41 samplePost) [] =
      ((none, some (.mk "too many posts: 41 (max 40)")), []) :=
  ⟨by decide,
    (add_delete_batch_limit sampleLib (NewClient "http://localhost" []) (scriptedServer [] 200)
      background (List.replicate 41 samplePost) []).1 (by decide)⟩

/-- C7: with an empty post list `Add` and `Delete` return a response with empty
post lists and an empty message, no error, and leave the request log
untouched, whatever the client, the library and the server. -/
theorem add_delete_empty (L : Lib) (c : Client) (t : Transport) (ctx : Context) (w : World) :
    Client.Add L c t ctx [] w =
      ((some { InsertedPosts := [], FailedPosts := [], Message := "" }, none), w) ∧
    Client.Delete L c t ctx [] w =
      ((some { DeletedPosts := [], FailedPosts := [], Message := "" }, none), w) :=
  ⟨rfl, rfl⟩

/-! ## Theorems: auth options -/

theorem authOption_noop (o : AuthOption) (opts : ClientOptions)
    (h : opts.Auth.authType ≠ .NoAuth) : o.toClientOption opts = opts := by
  rcases o with tok | ⟨i, sec⟩ | ⟨u, pw⟩ <;>
    simp [AuthOption.toClientOption, WithToken, WithCloudflareAccess, WithBasicAuth, h]

theorem authOption_sets (o : AuthOption) :
    (o.toClientOption DefaultClientOptions).Auth.authType ≠ .NoAuth := by
  rcases o with tok | ⟨i, sec⟩ | ⟨u, pw⟩ <;>
    simp [AuthOption.toClientOption, WithToken, WithCloudflareAccess, WithBasicAuth,
      DefaultClientOptions]

theorem applyOptions_noop (os : List AuthOption) (opts : ClientOptions)
    (h : opts.Auth.authType ≠ .NoAuth) :
    applyOptions opts (os.map AuthOption.toClientOption) = opts := by
  induction os with
  | nil => rfl
  | cons o os ih =>
    simp only [applyOptions, List.map_cons, List.foldl_cons] at ih ⊢
    rw [authOption_noop o opts h]
    exact ih

/-- C8: for every non-empty sequence of auth options applied in order to the
default options, the auth type and the credential map are those set by the
first option alone, every later option leaving the options as they are; for
the empty sequence the auth type is `NoAuth` and the credential map is empty. -/
theorem first_auth_option_wins (base : String) (o : AuthOption) (os : List AuthOption) :
    (NewClient base ((o :: os).map AuthOption.toClientOption)).config.Auth.authType =
        (NewClient base [o.toClientOption]).config.Auth.authType ∧
    (NewClient base ((o :: os).map AuthOption.toClientOption)).config.Auth.Credentials =
        (NewClient base [o.toClientOption]).config.Auth.Credentials ∧
    (∀ later : AuthOption,
      later.toClientOption
          (applyOptions DefaultClientOptions ((o :: os).map AuthOption.toClientOption)) =
        applyOptions DefaultClientOptions ((o :: os).map AuthOption.toClientOption)) ∧
    (NewClient base []).config.Auth.authType = .NoAuth ∧
    (NewClient base []).config.Auth.Credentials = [] := by
  have hall : applyOptions DefaultClientOptions ((o :: os).map AuthOption.toClientOption) =
      o.toClientOption DefaultClientOptions := by
    have := applyOptions_noop os (o.toClientOption DefaultClientOptions) (authOption_sets o)
    simpa [applyOptions] using this
  have hone : applyOptions DefaultClientOptions [o.toClientOption] =
      o.toClientOption DefaultClientOptions := rfl
  refine ⟨?_, ?_, ?_, rfl, rfl⟩
  · simp only [NewClient, hall, hone]
  · simp only [NewClient, hall, hone]
  · intro later
    rw [hall]
    exact authOption_noop later _ (authOption_sets o)

/-! ## Theorems: validation before the network -/

/-- C9 (as stated, refuted): for the rejected feed `""` and the count `-1`,
`TrimWithCount` returns the count error, which does not wrap the validation
error `uri is empty`. -/
theorem trim_count_error_first :
    FeedUri.Validate "" = some (.mk "uri is empty") ∧
    Client.TrimWithCount sampleLib (NewClient "http://localhost" []) (scriptedServer [] 200)
        background "" (-1) [] =
      ((none, some (.mk "invalid count: -1")), []) := by
  constructor
  · decide
  · rfl

/-- C9 (amended): a feed that `FeedUri.Validate` rejects makes `ListPost`, and
`TrimWithCount` with a count of 0 or more, return the validation error wrapped
in `invalid feed uri: `, with a nil response and no request sent; a negative
count makes `TrimWithCount` return the error `invalid count: <count>` with a nil
response and no request sent, whatever the feed; and with a valid feed (and a
count of 0 or more) the result is exactly that of the request executor. -/
theorem validation_before_network (L : Lib) (c : Client) (t : Transport) (ctx : Context)
    (feed : String) (w : World) :
    (∀ err limit, FeedUri.Validate feed = some err →
      Client.ListPost L c t ctx feed limit w =
        ((none, some (.wrap "invalid feed uri: " err)), w)) ∧
    (∀ err count, 0 ≤ count → FeedUri.Validate feed = some err →
      Client.TrimWithCount L c t ctx feed count w =
        ((none, some (.wrap "invalid feed uri: " err)), w)) ∧
    (∀ count, count < 0 →
      Client.TrimWithCount L c t ctx feed count w =
        ((none, some (.mk ("invalid count: " ++ itoa count))), w)) ∧
    (∀ limit, FeedUri.Validate feed = none →
      Client.ListPost L c t ctx feed limit w =
        returnResponse (Client.RequestWithResponse L c t ctx "GET"
          (if limit > 0 then "/feed/list?feed=" ++ feed ++ "&limit=" ++ itoa limit
           else "/feed/list?feed=" ++ feed) none L.unmarshalList w)) ∧
    (∀ count, 0 ≤ count → FeedUri.Validate feed = none →
      Client.TrimWithCount L c t ctx feed count w =
        returnResponse (Client.RequestWithResponse L c t ctx "GET"
          ("/feed/trim?feed=" ++ feed ++ "&within-count=" ++ itoa count) none
          L.unmarshalTrim w)) := by
  refine ⟨?_, ?_, ?_, ?_, ?_⟩
  · intro err limit hv
    simp [Client.ListPost, hv]
  · intro err count hc hv
    have hc2 : ¬ count < 0 := by omega
    simp [Client.TrimWithCount, hc2, hv]
  · intro count hc
    simp [Client.TrimWithCount, hc]
  · intro limit hv
    simp only [Client.ListPost, hv]
  · intro count hc hv
    have hc2 : ¬ count < 0 := by omega
    simp only [Client.TrimWithCount, hc2, hv, if_false]

/-- Witness of C9: the feed `invalid://x` is rejected with
`uri must start with at://`; `ListPost` returns it wrapped and sends nothing. -/
theorem validation_before_network_witness :
    FeedUri.Validate "invalid://x" = some (.mk "uri must start with at://") ∧
    Client.ListPost sampleLib (NewClient "http://localhost" []) (scriptedServer [] 200)
        background "invalid://x" 10 [] =
      ((none, some (.wrap "invalid feed uri: " (.mk "uri must start with at://"))), []) :=
  ⟨by decide,
    (validation_before_network sampleLib (NewClient "http://localhost" [])
      (scriptedServer [] 200) background "invalid://x" []).1
      (.mk "uri must start with at://") 10 (by decide)⟩

/-- C10 (as stated, refuted): the feed
`at://did:plc:1234/app.bsky.feed.generator/x` followed by a line feed is
accepted by `FeedUri.Validate`, yet with a library that refuses control
characters in a URL `ListPost` issues no request: it returns
`failed to create request` and the log stays empty. -/
theorem listPost_issues_nothing :
    FeedUri.Validate "at://did:plc:1234/app.bsky.feed.generator/x\n" = none ∧
    Client.ListPost controlCheckLib (NewClient "http://localhost" []) (scriptedServer [] 200)
        background "at://did:plc:1234/app.bsky.feed.generator/x\n" 10 [] =
      ((none, some (.wrap "failed to create request: "
          (.mk "net/url: invalid control character in URL"))), []) := by
  constructor
  · decide
  · rfl

/-- C10 (amended): for a feed that `FeedUri.Validate` accepts, `ListPost` hands
to the request executor a `GET` whose path is
`/feed/list?feed=<feed>&limit=<limit>` when the limit is positive and
`/feed/list?feed=<feed>` otherwise; every request it sends is a `GET` of the
base URL followed by that path; at least one is sent when
`http.NewRequestWithContext` accepts that URL, and when it refuses it `ListPost`
returns its error wrapped in `failed to create request: `, with a nil response
and nothing sent. -/
theorem listPost_path (L : Lib) (c : Client) (t : Transport) (ctx : Context)
    (feed : String) (limit : Int) (w : World) (hv : FeedUri.Validate feed = none) :
    (limit > 0 →
      Client.ListPost L c t ctx feed limit w =
        returnResponse (Client.RequestWithResponse L c t ctx "GET"
          ("/feed/list?feed=" ++ feed ++ "&limit=" ++ itoa limit) none L.unmarshalList w) ∧
      (∀ r, r ∈ newRequests w (Client.ListPost L c t ctx feed limit w).2 →
        r.Method = "GET" ∧
        r.url = .parse (c.BaseURL ++ ("/feed/list?feed=" ++ feed ++ "&limit=" ++ itoa limit))) ∧
      (L.newRequestErr "GET"
          (c.BaseURL ++ ("/feed/list?feed=" ++ feed ++ "&limit=" ++ itoa limit)) = none →
        newRequests w (Client.ListPost L c t ctx feed limit w).2 ≠ []) ∧
      (∀ err, L.newRequestErr "GET"
          (c.BaseURL ++ ("/feed/list?feed=" ++ feed ++ "&limit=" ++ itoa limit)) = some err →
        Client.ListPost L c t ctx feed limit w =
          ((none, some (.wrap "failed to create request: " err)), w))) ∧
    (limit ≤ 0 →
      Client.ListPost L c t ctx feed limit w =
        returnResponse (Client.RequestWithResponse L c t ctx "GET"
          ("/feed/list?feed=" ++ feed) none L.unmarshalList w) ∧
      (∀ r, r ∈ newRequests w (Client.ListPost L c t ctx feed limit w).2 →
        r.Method = "GET" ∧ r.url = .parse (c.BaseURL ++ ("/feed/list?feed=" ++ feed))) ∧
      (L.newRequestErr "GET" (c.BaseURL ++ ("/feed/list?feed=" ++ feed)) = none →
        newRequests w (Client.ListPost L c t ctx feed limit w).2 ≠ []) ∧
      (∀ err, L.newRequestErr "GET" (c.BaseURL ++ ("/feed/list?feed=" ++ feed)) = some err →
        Client.ListPost L c t ctx feed limit w =
          ((none, some (.wrap "failed to create request: " err)), w))) := by
  have key : ∀ path : String,
      (if limit > 0 then "/feed/list?feed=" ++ feed ++ "&limit=" ++ itoa limit
        else "/feed/list?feed=" ++ feed) = path →
      Client.ListPost L c t ctx feed limit w =
        returnResponse (Client.RequestWithResponse L c t ctx "GET" path none
          L.unmarshalList w) ∧
      (∀ r, r ∈ newRequests w (Client.ListPost L c t ctx feed limit w).2 →
        r.Method = "GET" ∧ r.url = .parse (c.BaseURL ++ path)) ∧
      (L.newRequestErr "GET" (c.BaseURL ++ path) = none →
        newRequests w (Client.ListPost L c t ctx feed limit w).2 ≠ []) ∧
      (∀ err, L.newRequestErr "GET" (c.BaseURL ++ path) = some err →
        Client.ListPost L c t ctx feed limit w =
          ((none, some (.wrap "failed to create request: " err)), w)) := by
    intro path hp
    have heq : Client.ListPost L c t ctx feed limit w =
        returnResponse (Client.RequestWithResponse L c t ctx "GET" path none
          L.unmarshalList w) := by
      simp only [Client.ListPost, hv, hp]
    refine ⟨heq, ?_, ?_, ?_⟩
    · intro r hr
      obtain ⟨_, rfl⟩ := ListPost_requests _ _ _ _ _ _ _ _ hr
      rw [hp]
      exact ⟨(buildRequest_fields _ _ _ _ _).1, (buildRequest_fields _ _ _ _ _).2.1⟩
    · intro hn
      rw [heq, returnResponse_world]
      obtain ⟨n, h1, _, hrep⟩ := RequestWithResponse_issues L c t ctx "GET" path none
        L.unmarshalList w none rfl hn
      rw [hrep]
      intro hnil
      have := congrArg List.length hnil
      simp at this
      omega
    · intro err he
      rw [heq]
      simp only [Client.RequestWithResponse, marshalBody, he, returnResponse]
  constructor
  · intro hl
    exact key _ (by simp [hl])
  · intro hl
    have hl2 : ¬ limit > 0 := by omega
    exact key _ (by simp [hl2])

/-- Witness of C10 (amended): the feed of the tests with limit 10 gives the path
`/feed/list?feed=at://did:plc:test/app.bsky.feed.generator/test&limit=10`. -/
theorem listPost_path_witness :
    FeedUri.Validate "at://did:plc:test/app.bsky.feed.generator/test" = none ∧
    (10 : Int) > 0 ∧
    Client.ListPost sampleLib (NewClient "http://localhost" []) (scriptedServer [] 200)
        background "at://did:plc:test/app.bsky.feed.generator/test" 10 [] =
      returnResponse (Client.RequestWithResponse sampleLib (NewClient "http://localhost" [])
        (scriptedServer [] 200) background "GET"
        "/feed/list?feed=at://did:plc:test/app.bsky.feed.generator/test&limit=10" none
        sampleLib.unmarshalList []) :=
  ⟨by decide, by decide,
    ((listPost_path sampleLib (NewClient "http://localhost" []) (scriptedServer [] 200)
      background "at://did:plc:test/app.bsky.feed.generator/test" 10 [] (by decide)).1
      (by decide)).1⟩

/-! ## Theorems: query strings -/

theorem digitChar_ne_amp (m : Nat) (h : m < 10) : Nat.digitChar m ≠ '&' := by
  interval_cases m <;> decide

theorem toDigitsCore_no_amp (fuel : Nat) :
    ∀ (n : Nat) (ds : List Char), '&' ∉ ds → '&' ∉ Nat.toDigitsCore 10 fuel n ds := by
  induction fuel with
  | zero =>
    intro n ds h
    simpa [Nat.toDigitsCore] using h
  | succ fuel ih =>
    intro n ds h
    have hd : '&' ∉ Nat.digitChar (n % 10) :: ds := by
      intro m
      rcases List.mem_cons.1 m with e | m
      · exact digitChar_ne_amp (n % 10) (Nat.mod_lt _ (by decide)) e.symm
      · exact h m
    simp only [Nat.toDigitsCore]
    split
    · exact hd
    · exact ih _ _ hd

theorem natDigits_no_amp (n : Nat) : '&' ∉ (natDigits n).data := by
  simp only [natDigits, Nat.repr, Nat.toDigits, List.asString]
  exact toDigitsCore_no_amp _ _ _ (by simp)

theorem itoa_no_amp (n : Int) (h : 0 ≤ n) : '&' ∉ (itoa n).data := by
  have hn : ¬ n < 0 := by omega
  simp only [itoa, hn, if_false]
  exact natDigits_no_amp _

theorem splitList_two_iff (sep : Char) (a b : List Char) (hb : sep ∉ b) :
    splitList sep (a ++ sep :: b) = [a, b] ↔ sep ∉ a := by
  constructor
  · intro h
    exact (splitList_cons_inv sep _ a [b] h).1
  · intro ha
    rw [splitList_append_sep sep a b ha, splitList_of_not_mem sep b hb]

theorem splitList_one_iff (sep : Char) (a : List Char) :
    splitList sep a = [a] ↔ sep ∉ a := by
  constructor
  · intro h
    exact (splitList_cons_inv sep _ a [] h).1
  · exact splitList_of_not_mem sep a

theorem queryParams_trimPath (feed : String) (count : Int) (h : 0 ≤ count) :
    queryParams (trimPath feed count) = ["feed=" ++ feed, "within-count=" ++ itoa count] ↔
      '&' ∉ feed.data := by
  have hd : afterFirst '?' (trimPath feed count).data =
      ("feed=" ++ feed).data ++ '&' :: ("within-count=" ++ itoa count).data := by
    simp only [trimPath, String.data_append, List.append_assoc]
    rfl
  have hb : '&' ∉ ("within-count=" ++ itoa count).data := by
    rw [String.data_append]
    intro m
    rcases List.mem_append.1 m with m | m
    · revert m
      decide
    · exact itoa_no_amp count h m
  have ha : '&' ∉ ("feed=" ++ feed).data ↔ '&' ∉ feed.data := by
    rw [String.data_append]
    constructor
    · intro hn m
      exact hn (List.mem_append_right _ m)
    · intro hn m
      rcases List.mem_append.1 m with m | m
      · revert m
        decide
      · exact hn m
  unfold queryParams
  rw [hd, ← ha, ← splitList_two_iff '&' _ _ hb]
  constructor
  · intro hq
    rcases hs : splitList '&' (("feed=" ++ feed).data ++
        '&' :: ("within-count=" ++ itoa count).data) with _ | ⟨x, _ | ⟨y, _ | ⟨z, r⟩⟩⟩ <;>
      rw [hs] at hq <;> simp at hq
    obtain ⟨hx, hy⟩ := hq
    rw [← hx, ← hy]
  · intro hq
    rw [hq]
    rfl

theorem queryParams_listPath (feed : String) (limit : Int) :
    queryParams (listPath feed limit) =
        (if limit > 0 then ["feed=" ++ feed, "limit=" ++ itoa limit] else ["feed=" ++ feed]) ↔
      '&' ∉ feed.data := by
  have ha : '&' ∉ ("feed=" ++ feed).data ↔ '&' ∉ feed.data := by
    rw [String.data_append]
    constructor
    · intro hn m
      exact hn (List.mem_append_right _ m)
    · intro hn m
      rcases List.mem_append.1 m with m | m
      · revert m
        decide
      · exact hn m
  unfold queryParams listPath
  by_cases hl : limit > 0
  · have hd : afterFirst '?' ("/feed/list?feed=" ++ feed ++ "&limit=" ++ itoa limit).data =
        ("feed=" ++ feed).data ++ '&' :: ("limit=" ++ itoa limit).data := by
      simp only [String.data_append, List.append_assoc]
      rfl
    have hb : '&' ∉ ("limit=" ++ itoa limit).data := by
      rw [String.data_append]
      intro m
      rcases List.mem_append.1 m with m | m
      · revert m
        decide
      · exact itoa_no_amp limit (by omega) m
    simp only [hl, if_true]
    rw [hd, ← ha, ← splitList_two_iff '&' _ _ hb]
    constructor
    · intro hq
      rcases hs : splitList '&' (("feed=" ++ feed).data ++
          '&' :: ("limit=" ++ itoa limit).data) with _ | ⟨x, _ | ⟨y, _ | ⟨z, r⟩⟩⟩ <;>
        rw [hs] at hq <;> simp at hq
      obtain ⟨hx, hy⟩ := hq
      rw [← hx, ← hy]
    · intro hq
      rw [hq]
      rfl
  · have hd : afterFirst '?' ("/feed/list?feed=" ++ feed).data = ("feed=" ++ feed).data := by
      simp only [String.data_append]
      rfl
    simp only [hl, if_false]
    rw [hd, ← ha, ← splitList_one_iff '&']
    constructor
    · intro hq
      rcases hs : splitList '&' ("feed=" ++ feed).data with _ | ⟨x, _ | ⟨y, r⟩⟩ <;>
        rw [hs] at hq <;> simp at hq
      rw [← hq]
    · intro hq
      rw [hq]
      rfl

/-- C11 (as stated, refuted): the feed
`at://did:plc:x/app.bsky.feed.generator/a&b?c#d` is accepted although it
contains `&`, `?` and `#`; the path that `TrimWithCount` sends for it has three
parameters, and the path of `ListPost` without a limit has two. -/
theorem accepted_feed_splits_query :
    FeedUri.Validate "at://did:plc:x/app.bsky.feed.generator/a&b?c#d" = none ∧
    ('&' ∈ "at://did:plc:x/app.bsky.feed.generator/a&b?c#d".data ∧
      '?' ∈ "at://did:plc:x/app.bsky.feed.generator/a&b?c#d".data ∧
      '#' ∈ "at://did:plc:x/app.bsky.feed.generator/a&b?c#d".data) ∧
    newRequests []
        (Client.TrimWithCount sampleLib (NewClient "http://localhost" [])
          (scriptedServer [] 200) background
          "at://did:plc:x/app.bsky.feed.generator/a&b?c#d" 0 []).2 =
      [Client.buildRequest sampleLib (NewClient "http://localhost" []) "GET"
        "/feed/trim?feed=at://did:plc:x/app.bsky.feed.generator/a&b?c#d&within-count=0" none] ∧
    queryParams
        "/feed/trim?feed=at://did:plc:x/app.bsky.feed.generator/a&b?c#d&within-count=0" =
      ["feed=at://did:plc:x/app.bsky.feed.generator/a", "b?c#d", "within-count=0"] ∧
    queryParams (listPath "at://did:plc:x/app.bsky.feed.generator/a&b?c#d" 0) =
      ["feed=at://did:plc:x/app.bsky.feed.generator/a", "b?c#d"] := by
  refine ⟨?_, ⟨?_, ?_, ?_⟩, ?_, ?_, ?_⟩
  · decide
  · decide
  · decide
  · decide
  · rfl
  · decide
  · decide

/-- C11 (amended): for a feed that `FeedUri.Validate` accepts, `TrimWithCount`
with a count of 0 or more hands the path `trimPath` to the request executor,
and that path, cut at its first `?` and split on `&`, is exactly
`feed=<feed>` and `within-count=<count>` if and only if the feed contains no
`&`; likewise the path of `ListPost` is exactly `feed=<feed>` plus the optional
limit parameter if and only if the feed contains no `&`.  The validator
excludes only `/` from the id and the record key: every
`at://did:plc:<id>/app.bsky.feed.generator/<key>` with id and key free of `/`
and key non-empty is accepted. -/
theorem query_parameters (L : Lib) (c : Client) (t : Transport) (ctx : Context)
    (feed : String) (w : World) :
    (FeedUri.Validate feed = none → ∀ count : Int, 0 ≤ count →
      Client.TrimWithCount L c t ctx feed count w =
        returnResponse (Client.RequestWithResponse L c t ctx "GET" (trimPath feed count) none
          L.unmarshalTrim w) ∧
      (queryParams (trimPath feed count) = ["feed=" ++ feed, "within-count=" ++ itoa count] ↔
        '&' ∉ feed.data)) ∧
    (FeedUri.Validate feed = none → ∀ limit : Int,
      Client.ListPost L c t ctx feed limit w =
        returnResponse (Client.RequestWithResponse L c t ctx "GET" (listPath feed limit) none
          L.unmarshalList w) ∧
      (queryParams (listPath feed limit) =
          (if limit > 0 then ["feed=" ++ feed, "limit=" ++ itoa limit]
           else ["feed=" ++ feed]) ↔
        '&' ∉ feed.data)) ∧
    (∀ id key : String, '/' ∉ id.data → key ≠ "" → '/' ∉ key.data →
      FeedUri.Validate
        ("at://did:plc:" ++ id ++ "/" ++ "app.bsky.feed.generator" ++ "/" ++ key) = none) := by
  refine ⟨?_, ?_, ?_⟩
  · intro hv count hc
    have hc2 : ¬ count < 0 := by omega
    refine ⟨?_, queryParams_trimPath feed count hc⟩
    simp only [Client.TrimWithCount, hc2, hv, if_false, trimPath]
  · intro hv limit
    refine ⟨?_, queryParams_listPath feed limit⟩
    simp only [Client.ListPost, hv, listPath]
  · intro id key hid hk hkn
    exact (validate_none_iff_lax "app.bsky.feed.generator" "feed name" _ (by decide)).2
      ⟨id, key, hid, hk, hkn, rfl⟩

/-- Witness of C11 (amended): the feed of the tests has no `&`, and with count 5
the path of `TrimWithCount` has exactly the parameters `feed=<feed>` and
`within-count=5`. -/
theorem query_parameters_witness :
    FeedUri.Validate "at://did:plc:test/app.bsky.feed.generator/test" = none ∧
    (0 : Int) ≤ 5 ∧
    '&' ∉ "at://did:plc:test/app.bsky.feed.generator/test".data ∧
    queryParams (trimPath "at://did:plc:test/app.bsky.feed.generator/test" 5) =
      ["feed=" ++ "at://did:plc:test/app.bsky.feed.generator/test",
        "within-count=" ++ itoa 5] :=
  ⟨by decide, by decide, by decide,
    (((query_parameters sampleLib (NewClient "http://localhost" []) (scriptedServer [] 200)
      background "at://did:plc:test/app.bsky.feed.generator/test" []).1 (by decide) 5
      (by decide)).2).2 (by decide)⟩

end Gyoka
